import Mathlib

/-!
# SipiIOJ2k: the JPEG2000 adapter of Sipi

A shallow embedding of `src/formats/SipiIOJ2k.cpp` (signature probe, the colour /
bit-depth / palette resolution of `SipiIOJ2k::read`, the colour and channel boxes and
the metadata UUID boxes of `SipiIOJ2k::write`) together with theorems about it.

Conventions.
* Bytes are natural numbers (`0 .. 255`); buffers are lists of bytes.
* `int` values handed back by the codec engine are `Int`; `size_t` arithmetic is
  `Nat` arithmetic modulo `2 ^ 64`.
* The codec engine (Kakadu) and the image class are external: what they report is
  collected in records that the embedded functions take as arguments, and every call
  that matters for resource handling is recorded in a trace of `Call`s.
* `float` / `double` values are the rational numbers they denote; every arithmetic
  operation is followed by the IEEE-754 round-to-nearest-even of its format.
-/

namespace Sipi

/-! ## Signature probe (`is_jpx`) -/

/-- Signature `sig0` of `is_jpx`: the marker pair looked for at offset 45. -/
def sig0 : List Nat := [0xff, 0x52]

/-- Signature `sig1` of `is_jpx`: start of a raw codestream. -/
def sig1 : List Nat := [0xff, 0x4f, 0xff, 0x51]

/-- Signature `sig2` of `is_jpx`: the JP2 / JPX family signature box. -/
def sig2 : List Nat := [0x00, 0x00, 0x00, 0x0C, 0x6A, 0x50, 0x20, 0x20, 0x0D, 0x0A, 0x87, 0x0A]

/-- The test `memcmp(sig, buf + off, sizeof sig) == 0`. -/
def memcmp_eq (sig buf : List Nat) (off : Nat) : Bool :=
  decide ((buf.drop off).take sig.length = sig)

/-- The call `read(inf, testbuf, count)` on a freshly opened file with the given content:
the number of bytes obtained, and the buffer afterwards. Only the first `n` bytes of the
buffer are overwritten; the others keep whatever the stack held (`stack`). -/
def posix_read (content : List Nat) (count : Nat) (stack : List Nat) : Int × List Nat :=
  let got := content.take count
  ((got.length : Int), got ++ (stack.take count).drop got.length)

/-- The function `is_jpx`. `file` is `none` when `open` fails, else the content of the file;
`stack` is the indeterminate initial content of `testbuf`. -/
def is_jpx (file : Option (List Nat)) (stack : List Nat) : Bool :=
  match file with
  | none => false
  | some content =>
    let r := posix_read content 48 stack
    let n := r.1
    let testbuf := r.2
    if decide (n ≥ 47) && memcmp_eq sig0 testbuf 45 then true
    else if decide (n ≥ 4) && memcmp_eq sig1 testbuf 0 then true
    else if decide (n ≥ 12) && memcmp_eq sig2 testbuf 0 then true
    else false

/-! ## Floating point: `roundf((tmplut[i] + 0.5) * 255.0)` -/

/-- Nearest integer, halfway cases to the even neighbour (the IEEE-754 default rounding
of a significand). -/
def round_half_even (q : ℚ) : ℤ :=
  let f := ⌊q⌋
  let r := q - f
  if r < 1 / 2 then f else if 1 / 2 < r then f + 1 else if f % 2 = 0 then f else f + 1

/-- Exponent of the unit in the last place of `q` in the binary format with `p` significand
bits and least normal exponent `emin` (binary32: 24, -126; binary64: 53, -1022). -/
def ulp_exp (p emin : ℤ) (q : ℚ) : ℤ := max (Int.log 2 |q| + 1 - p) (emin + 1 - p)

/-- Round-to-nearest-even of `q` into the binary format `(p, emin)`; the values met here are
far below the overflow threshold of either format. -/
def round_to_format (p emin : ℤ) (q : ℚ) : ℚ :=
  (round_half_even (q / 2 ^ ulp_exp p emin q) : ℚ) * 2 ^ ulp_exp p emin q

/-- The result of a `double` operation whose exact value is `q`. -/
def to_double (q : ℚ) : ℚ := round_to_format 53 (-1022) q

/-- The conversion of the exact value `q` to `float`. -/
def to_float (q : ℚ) : ℚ := round_to_format 24 (-126) q

/-- The C function `roundf`: nearest integer, halfway cases away from zero. -/
def roundf (x : ℚ) : ℤ := if 0 ≤ x then ⌊x + 1 / 2⌋ else ⌈x - 1 / 2⌉

/-- The expression `roundf((tmplut[i] + 0.5) * 255.0)` for `tmplut[i] = v`: the sum and the
product are `double` operations, the argument of `roundf` is converted to `float`. -/
def lut_round (v : ℚ) : ℤ := roundf (to_float (to_double (to_double (v + 1 / 2) * 255)))

/-- Storing an integral value into a `byte` (`unsigned char`): the low 8 bits. -/
def to_byte (z : ℤ) : Nat := (z % 256).toNat

/-- One entry of `rlut` / `glut` / `blut`. -/
def lut_entry (v : ℚ) : Nat := to_byte (lut_round v)

/-! ## Data model -/

/-- Conversion of an `int` to `size_t` (64 bits). -/
def to_size_t (i : ℤ) : Nat := (i % 2 ^ 64).toNat

/-- Subtraction of two `size_t` values. -/
def sub_size_t (a b : Nat) : Nat := (a + 2 ^ 64 - b % 2 ^ 64) % 2 ^ 64

/-- The photometric interpretations that `SipiIOJ2k.cpp` names (the enumeration itself is
declared in `SipiImage.h`). -/
inductive PhotometricInterpretation
  | MINISBLACK | RGB | SEPARATED | YCBCR | INVALID
  deriving DecidableEq, Repr

/-- The one extra-sample role that `SipiIOJ2k.cpp` names. -/
inductive ExtraSamples
  | ASSOCALPHA
  deriving DecidableEq, Repr

/-- The predefined ICC profile types that `SipiIOJ2k.cpp` names (declared in `SipiIcc.h`). -/
inductive PredefinedProfiles
  | icc_undefined | icc_unknown | icc_sRGB | icc_AdobeRGB | icc_RGB | icc_CYMK_standard
  | icc_GRAY_D50 | icc_LUM_D65 | icc_ROMM_GRAY
  deriving DecidableEq, Repr

/-- An ICC profile handle, by the constructor call of `SipiIcc` that made it. -/
inductive SipiIcc
  | predefined (p : PredefinedProfiles)
  | from_primaries (whitepoint primaries : List ℚ)
  | from_bytes (icc_buf : List Nat)
  deriving DecidableEq

/-- The enumerators of Kakadu's `jp2_colour_space` that `SipiIOJ2k.cpp` names. Their numeric
values are declared in Kakadu's `jp2.h`, which is not part of the sources: the functions
below take them as the argument `sp`. -/
inductive jp2_colour_space
  | JP2_sRGB_SPACE | JP2_CMYK_SPACE | JP2_YCbCr1_SPACE | JP2_YCbCr2_SPACE | JP2_YCbCr3_SPACE
  | JP2_iccRGB_SPACE | JP2_iccANY_SPACE | JP2_sLUM_SPACE | JP2_sYCC_SPACE
  deriving DecidableEq, Repr

/-- What the C++ compiler demands of the enumerators for the `switch` of `read` to be
well-formed: the case labels, the literal `100` included, are pairwise different. -/
def case_labels_distinct (sp : jp2_colour_space → ℤ) : Prop :=
  Function.Injective sp ∧ ∀ s, sp s ≠ 100

/-- The values the enumerators have in Kakadu's `jp2.h`; used for concrete instances. -/
def kdu_space_value : jp2_colour_space → ℤ
  | .JP2_YCbCr1_SPACE => 1
  | .JP2_YCbCr2_SPACE => 3
  | .JP2_YCbCr3_SPACE => 4
  | .JP2_CMYK_SPACE => 12
  | .JP2_sRGB_SPACE => 16
  | .JP2_sLUM_SPACE => 17
  | .JP2_sYCC_SPACE => 18
  | .JP2_iccRGB_SPACE => 101
  | .JP2_iccANY_SPACE => 102

/-- The errors thrown with `throw SipiImageError(...)`, by throw site. -/
inductive SipiImageError
  /-- Line 462: "Unsupported ICC profile: " followed by the colour-space code. -/
  | unsupported_icc_profile (space : ℤ)
  /-- Line 486: "No meaningful photometric interpretation possible". -/
  | no_photometric
  /-- Lines 529 and 875: "Unsupported number of bits/sample!". -/
  | unsupported_bps
  /-- Line 895: "Problem writing a JPEG2000 image!". -/
  | problem_writing
  deriving DecidableEq, Repr

/-- What leaves `read` / `write` as a C++ exception. -/
inductive Exn
  /-- A `SipiError` (the one rethrown from `crop_coords`). -/
  | sipi_error (msg : String)
  /-- A `SipiImageError`. -/
  | image_error (e : SipiImageError)
  /-- The `kdu_exception` that `KduSipiError::flush` throws (`KDU_ERROR_EXCEPTION`). -/
  | kdu_exception
  deriving DecidableEq, Repr

/-- The fields of `SipiImage` that `SipiIOJ2k.cpp` reads or writes (the class is declared in
`SipiImage.h`; `nx`, `ny`, `nc` and `bps` are `size_t` values there). The metadata handles
are the byte blobs they were built from and serialize to. -/
structure SipiImage where
  nx : Nat
  ny : Nat
  nc : Nat
  bps : Nat
  es : List ExtraSamples
  photo : PhotometricInterpretation
  icc : Option SipiIcc
  xmp : Option (List Nat)
  iptc : Option (List Nat)
  exif : Option (List Nat)
  essentials : Option String
  pixels : List Nat

/-- The Kakadu type `kdu_dims`: position and size. -/
structure kdu_dims where
  pos_x : ℤ
  pos_y : ℤ
  size_x : ℤ
  size_y : ℤ
  deriving DecidableEq, Repr

/-- The calls on the codec engine, the container and the image that the traces record. -/
inductive Call
  | src_open | jpx_open | src_close | file_open | box_scan | open_stream
  | codestream_create
  | apply_input_restrictions (reduce : ℤ) (roi : Option kdu_dims)
  | decompressor_start
  | pull_stripe (sample_bytes : Nat)
  | decompressor_finish
  | codestream_destroy | input_close | jpx_close
  | convertYCC2RGB
  | scale (nnx nny : Nat)
  | tgt_open | jpx_out_open | write_headers
  | write_box (target_size : Nat) (body : List Nat)
  | compressor_start
  | push_stripe (sample_bytes : Nat)
  | compressor_finish
  | output_close | jpx_out_close | tgt_close
  deriving DecidableEq, Repr

/-! ## Metadata UUID boxes -/

/-- The 16-byte tag `xmp_uuid`. -/
def xmp_uuid : List Nat :=
  [0xBE, 0x7A, 0xCF, 0xCB, 0x97, 0xA9, 0x42, 0xE8, 0x9C, 0x71, 0x99, 0x94, 0x91, 0xE3, 0xAF, 0xAC]

/-- The 16-byte tag `iptc_uuid`. -/
def iptc_uuid : List Nat :=
  [0x33, 0xc7, 0xa4, 0xd2, 0xb8, 0x1d, 0x47, 0x23, 0xa0, 0xba, 0xf1, 0xa3, 0xe0, 0x97, 0xad, 0x38]

/-- The 16-byte tag `exif_uuid`: the characters of `JpgTiffExif->JP2`. -/
def exif_uuid : List Nat :=
  [0x4A, 0x70, 0x67, 0x54, 0x69, 0x66, 0x66, 0x45, 0x78, 0x69, 0x66, 0x2D, 0x3E, 0x4A, 0x50, 0x32]

/-- A box written through `jp2_output_box`: opened with type `jp2_uuid_4cc`, the size
declared with `set_target_size`, and the bytes written. -/
structure OutBox where
  target_size : Nat
  body : List Nat
  deriving DecidableEq, Repr

/-- The C function `strlen` on the memory that starts at the pointer. -/
def strlen (mem : List Nat) : Nat := (mem.takeWhile (fun b => b ≠ 0)).length

/-- The function `write_xmp_box`; `xmpstr` is the memory the pointer designates. -/
def write_xmp_box (xmpstr : List Nat) : OutBox :=
  { target_size := strlen xmpstr + xmp_uuid.length
    body := xmp_uuid.take 16 ++ xmpstr.take (strlen xmpstr) }

/-- The function `write_iptc_box`. -/
def write_iptc_box (iptc : List Nat) (iptc_len : Nat) : OutBox :=
  { target_size := iptc_len + iptc_uuid.length
    body := iptc_uuid.take 16 ++ iptc.take iptc_len }

/-- The function `write_exif_box`. -/
def write_exif_box (exif : List Nat) (exif_len : Nat) : OutBox :=
  { target_size := exif_len + exif_uuid.length
    body := exif_uuid.take exif_uuid.length ++ exif.take exif_len }

/-- A top-level box met by the scan of `read`: whether its type is `jp2_uuid_4cc`, and its
contents. -/
structure Box where
  is_uuid : Bool
  content : List Nat

/-- The acceptance tests of the external metadata constructors (`SipiXmp`, `SipiIptc`,
`SipiExif`): a constructor that throws `SipiError` is logged and leaves the handle alone. -/
structure MetaCtors where
  xmp_ok : List Nat → Bool
  iptc_ok : List Nat → Bool
  exif_ok : List Nat → Bool

/-- One pass of the body of the box loop of `read` (lines 237-269). `stack` is what `buf`
held before `box.read(buf, 16)`. -/
def scan_box (m : MetaCtors) (stack : List Nat) (img : SipiImage) (box : Box) : SipiImage :=
  if box.is_uuid then
    let buf := (posix_read box.content 16 stack).2
    let rest := box.content.drop 16
    if memcmp_eq xmp_uuid buf 0 then
      if m.xmp_ok rest then { img with xmp := some rest } else img
    else if memcmp_eq iptc_uuid buf 0 then
      if m.iptc_ok rest then { img with iptc := some rest } else img
    else if memcmp_eq exif_uuid buf 0 then
      if m.exif_ok rest then { img with exif := some rest } else img
    else img
  else img

/-- The box loop of `read` (lines 235-272). -/
def scan_boxes (m : MetaCtors) (stack : List Nat) (img : SipiImage) (boxes : List Box) :
    SipiImage :=
  boxes.foldl (scan_box m stack) img

/-! ## What the container and the codec engine report -/

/-- A colour description (`jp2_colour`) that exists: `get_space()` and
`get_icc_profile()`. -/
structure jp2_colour where
  space : ℤ
  icc_profile : List Nat

/-- A compositing layer (`jpx_layer_source`) that exists: `access_channels().get_num_colours()`
and `access_colour(0)` (`none` when the colour description does not exist). -/
structure jpx_layer_source where
  num_colours : ℤ
  colour : Option jp2_colour

/-- The palette (`jp2_palette`): `get_num_luts()`, `get_num_entries()`, and entry `i` of the
table that `get_lut(k, tmplut)` delivers, as `lut k i`. -/
structure jp2_palette where
  num_luts : ℤ
  num_entries : Nat
  lut : Nat → Nat → ℚ

/-- A source that `jpx_in.open` accepted: its top-level boxes, the palette of codestream 0
and layer 0 (`none` when `jpx_layer.exists()` is false). -/
structure jpx_source where
  boxes : List Box
  palette : jp2_palette
  layer : Option jpx_layer_source

/-- What the codestream reports: its comments, `Ssize`, `get_dims(0)` under the input
restrictions `(reduce, region)`, `get_bit_depth(0)`, `get_num_components()`, and the bytes
`pull_stripe` leaves in a buffer with samples of the given number of bytes. -/
structure kdu_codestream where
  comments : List String
  siz_nx : ℤ
  siz_ny : ℤ
  get_dims : ℤ → Option kdu_dims → kdu_dims
  bit_depth : ℤ
  num_components : ℤ
  stripe : Nat → List Nat

/-- A region argument: whether `getType()` is `FULL`, and `crop_coords(nx, ny, ...)`, which
either throws a `SipiError` or delivers `(x, y, sx, sy)`. -/
structure SipiRegion where
  is_full : Bool
  crop_coords : ℤ → ℤ → Except String (ℤ × ℤ × Nat × Nat)

/-- A size argument: whether `getType()` is `FULL`, and `get_size(w, h, ...)`, which
delivers `(nnx, nny, reduce, redonly)`. -/
structure SipiSize where
  is_full : Bool
  get_size : ℤ → ℤ → Nat × Nat × ℤ × Bool

/-- Everything outside `SipiIOJ2k.cpp` that a call of `read` depends on. `jpx` is `none`
when `jpx_in.open` answers a negative value (raw codestream); `heap` is the indeterminate
content of freshly allocated memory; `ycc2rgb` and `resample` are the pixel buffers that
`convertYCC2RGB` and `scale` of the image class produce; `sp` gives the values of the
colour-space enumerators; `create_fails` tells whether the engine reports an error
(through `kdu_sipi_error`, whose `flush` throws) while `codestream.create` parses the
codestream header. -/
structure Env where
  file : Option (List Nat)
  stack : List Nat
  heap : Nat → Nat
  ctors : MetaCtors
  jpx : Option jpx_source
  codestream : kdu_codestream
  ycc2rgb : SipiImage → List Nat
  resample : SipiImage → Nat → Nat → List Nat
  sp : jp2_colour_space → ℤ
  create_fails : Bool

/-! ## `SipiIOJ2k::read` -/

/-- Conversion of a `size_t` to `int` (32 bits, two's complement). -/
def to_int (n : Nat) : ℤ := ((n : ℤ) + 2 ^ 31) % 2 ^ 32 - 2 ^ 31

/-- Lines 288-297: the text after `SIPI:` of the first codestream comment that starts with
it. -/
def find_essentials (comments : List String) : Option String :=
  match comments.find? (fun c => c.take 5 == "SIPI:") with
  | some c => some (c.drop 5)
  | none => none

/-- The locals that lines 310-341 of `read` set up. `nnx` and `nny` are only meaningful after
`get_size` has run. -/
structure Restrictions where
  do_roi : Bool
  roi : kdu_dims
  reduce : ℤ
  nnx : Nat
  nny : Nat
  redonly : Bool

/-- Lines 310-325 of `read`: the region of interest. -/
def region_of_interest (cs : kdu_codestream) (region : Option SipiRegion) :
    Except Exn (Bool × kdu_dims) :=
  match region with
  | some r =>
    if !r.is_full then
      match r.crop_coords cs.siz_nx cs.siz_ny with
      | .ok (x, y, sx, sy) => .ok (true, ⟨x, y, (sx : ℤ), (sy : ℤ)⟩)
      | .error msg => .error (.sipi_error msg)
    else .ok (false, ⟨0, 0, 0, 0⟩)
  | none => .ok (false, ⟨0, 0, 0, 0⟩)

/-- Lines 330-341 of `read`: the reduce level and the target size. -/
def scaling (cs : kdu_codestream) (size : Option SipiSize) (do_roi : Bool) (roi : kdu_dims) :
    Nat × Nat × ℤ × Bool :=
  let r : Nat × Nat × ℤ × Bool :=
    match size with
    | some s =>
      if !s.is_full then
        if do_roi then s.get_size roi.size_x roi.size_y else s.get_size cs.siz_nx cs.siz_ny
      else (0, 0, 0, true)
    | none => (0, 0, 0, true)
  (r.1, r.2.1, (if r.2.2.1 < 0 then 0 else r.2.2.1), r.2.2.2)

/-- Lines 302-341 of `read`. -/
def restrictions (cs : kdu_codestream) (region : Option SipiRegion) (size : Option SipiSize) :
    Except Exn Restrictions :=
  match region_of_interest cs region with
  | .error e => .error e
  | .ok (do_roi, roi) =>
    let r := scaling cs size do_roi roi
    .ok { do_roi := do_roi, roi := roi, reduce := r.2.2.1, nnx := r.1, nny := r.2.1,
          redonly := r.2.2.2 }

/-- The arrays `rlut`, `glut`, `blut` when they are not `NULL`. -/
structure Luts where
  rlut : List Nat
  glut : List Nat
  blut : List Nat
  deriving DecidableEq, Repr

/-- Lines 374-397 of `read`: the three lookup tables, when the palette has exactly three. -/
def read_luts (pal : jp2_palette) : Option Luts :=
  if pal.num_luts = 3 then
    some { rlut := (List.range pal.num_entries).map (fun i => lut_entry (pal.lut 0 i))
           glut := (List.range pal.num_entries).map (fun i => lut_entry (pal.lut 1 i))
           blut := (List.range pal.num_entries).map (fun i => lut_entry (pal.lut 2 i)) }
  else none

/-- Lines 399-403 of `read`: one `ASSOCALPHA` is pushed for every component beyond the colour
channels (`img->nc > numcol` and `img->nc - numcol` are `size_t` operations). -/
def push_alpha (nc : Nat) (numcol : ℤ) (es : List ExtraSamples) : List ExtraSamples :=
  if nc > to_size_t numcol then
    es ++ List.replicate (sub_size_t nc (to_size_t numcol)) ExtraSamples.ASSOCALPHA
  else es

/-- A `float` initialised with a decimal constant: the constant is a `double`, converted to
`float`. -/
def float_of_literal (q : ℚ) : ℚ := to_float (to_double q)

/-- The array `whitepoint` of line 424. -/
def whitepoint : List ℚ := [float_of_literal 0.3127, float_of_literal 0.3290]

/-- The array `primaries` of line 425. -/
def primaries : List ℚ :=
  [float_of_literal 0.630, float_of_literal 0.340, float_of_literal 0.310,
   float_of_literal 0.595, float_of_literal 0.155, float_of_literal 0.070]

/-- Lines 405-464 of `read`: the `switch (space)`. -/
def colour_switch (sp : jp2_colour_space → ℤ) (space : ℤ) (icc_profile : List Nat) :
    Except SipiImageError (PhotometricInterpretation × SipiIcc) :=
  if space = sp .JP2_sRGB_SPACE then
    .ok (.RGB, .predefined .icc_sRGB)
  else if space = sp .JP2_CMYK_SPACE then
    .ok (.SEPARATED, .predefined .icc_CYMK_standard)
  else if space = sp .JP2_YCbCr1_SPACE then
    .ok (.YCBCR, .predefined .icc_sRGB)
  else if space = sp .JP2_YCbCr2_SPACE ∨ space = sp .JP2_YCbCr3_SPACE then
    .ok (.YCBCR, .from_primaries whitepoint primaries)
  else if space = sp .JP2_iccRGB_SPACE then
    .ok (.RGB, .from_bytes icc_profile)
  else if space = sp .JP2_iccANY_SPACE then
    .ok (.RGB, .from_bytes icc_profile)
  else if space = sp .JP2_sLUM_SPACE then
    .ok (.MINISBLACK, .predefined .icc_LUM_D65)
  else if space = sp .JP2_sYCC_SPACE then
    .ok (.YCBCR, .predefined .icc_sRGB)
  else if space = 100 then
    .ok (.MINISBLACK, .predefined .icc_ROMM_GRAY)
  else
    .error (.unsupported_icc_profile space)

/-- What lines 361-469 of `read` leave behind: the image, `numcol`, and the lookup
tables. -/
structure Resolved where
  img : SipiImage
  numcol : ℤ
  luts : Option Luts

/-- Lines 371-465 of `read`: the branch taken when `jpx_layer.exists()`. On a throw the
image is returned as it stands then. -/
def layer_branch (sp : jp2_colour_space → ℤ) (palette : jp2_palette)
    (layer : jpx_layer_source) (img0 : SipiImage) :
    Except (SipiImageError × SipiImage) Resolved :=
  let numcol := layer.num_colours
  let luts := read_luts palette
  let img1 := { img0 with es := push_alpha img0.nc numcol img0.es }
  match layer.colour with
  | some colinfo =>
    match colour_switch sp colinfo.space colinfo.icc_profile with
    | .ok (photo, icc) =>
      .ok { img := { img1 with photo := photo, icc := some icc }, numcol := numcol,
            luts := luts }
    | .error e => .error (e, img1)
  | none => .ok { img := img1, numcol := numcol, luts := luts }

/-- Lines 361-469 of `read`. Without a layer (`jpx_layer.exists()` false, which is also the
case of a raw codestream) `numcol` is `img->nc`. -/
def resolve_layer (sp : jp2_colour_space → ℤ) (jpx : Option jpx_source) (img : SipiImage) :
    Except (SipiImageError × SipiImage) Resolved :=
  let img0 := { img with photo := PhotometricInterpretation.INVALID }
  match jpx with
  | some j =>
    match j.layer with
    | some layer => layer_branch sp j.palette layer img0
    | none => .ok { img := img0, numcol := to_int img0.nc, luts := none }
  | none => .ok { img := img0, numcol := to_int img0.nc, luts := none }

/-- Lines 471-489 of `read`: the `switch (numcol)`, entered when `img->photo` is still
`INVALID`. -/
def infer_photo (photo : PhotometricInterpretation) (numcol : ℤ) :
    Except SipiImageError PhotometricInterpretation :=
  if photo = .INVALID then
    if numcol = 1 then .ok .MINISBLACK
    else if numcol = 3 then .ok .RGB
    else if numcol = 4 then .ok .SEPARATED
    else .error .no_photometric
  else .ok photo

/-- Lines 495-535 of `read`: the bit depth, the stripe pull and the release of the engine
resources, with the calls made. The pixel buffer is taken as the engine leaves it; the
array `stripe_heights` handed to `pull_stripe` is described apart, by
`stripe_heights_read`. -/
def pull_pixels (cs : kdu_codestream) (img : SipiImage) (force_bps_8 : Bool) :
    Except SipiImageError SipiImage × List Call :=
  let bps := if force_bps_8 then 8 else img.bps
  if bps = 8 then
    (.ok { img with bps := 8, pixels := cs.stripe 1 },
      [.decompressor_start, .pull_stripe 1, .decompressor_finish, .codestream_destroy,
       .input_close, .jpx_close])
  else if bps = 12 then
    (.ok { img with bps := 16, pixels := cs.stripe 2 },
      [.decompressor_start, .pull_stripe 2, .decompressor_finish, .codestream_destroy,
       .input_close, .jpx_close])
  else if bps = 16 then
    (.ok { img with bps := 16, pixels := cs.stripe 2 },
      [.decompressor_start, .pull_stripe 2, .decompressor_finish, .codestream_destroy,
       .input_close, .jpx_close])
  else
    (.error .unsupported_bps,
      [.decompressor_start, .decompressor_finish, .codestream_destroy, .input_close,
       .jpx_close])

/-- An array store `buf[i] = v`; `none` when `i` is outside the array (undefined
behaviour). -/
def store (buf : List Nat) (i v : Nat) : Option (List Nat) :=
  if i < buf.length then some (buf.set i v) else none

/-- Lines 544-546 of `read`: the three stores for the pixel `(x, y)`; `none` when a load or
a store leaves its array. -/
def expand_pixel (l : Luts) (pixels : List Nat) (nx : Nat) (y : Nat) (tmpbuf : List Nat)
    (x : Nat) : Option (List Nat) := do
  let i ← pixels[y * nx + x]?
  let r ← l.rlut[i]?
  let t0 ← store tmpbuf (3 * (y * nx + x) + 0) r
  let g ← l.glut[i]?
  let t1 ← store t0 (3 * (y * nx + x) + 1) g
  let b ← l.blut[i]?
  store t1 (3 * (y * nx + x) + 2) b

/-- Lines 542-548 of `read`: the two nested loops. -/
def expand_loops (l : Luts) (pixels : List Nat) (nx ny : Nat) (tmpbuf : List Nat) :
    Option (List Nat) :=
  (List.range ny).foldlM
    (fun buf y => (List.range nx).foldlM (expand_pixel l pixels nx y) buf) tmpbuf

/-- Lines 537-555 of `read`: the palette expansion. The new buffer has
`img->nx * img->ny * numcol` bytes, indeterminate at first. -/
def expand_palette (heap : Nat → Nat) (img : SipiImage) (numcol : ℤ) (l : Luts) :
    Option SipiImage :=
  let tmpbuf := (List.range ((img.nx * img.ny * to_size_t numcol) % 2 ^ 64)).map heap
  match expand_loops l img.pixels img.nx img.ny tmpbuf with
  | some buf => some { img with pixels := buf, nc := to_size_t numcol }
  | none => none

/-- The outcome of `read`: the value returned (or the exception thrown), the image object
as the call leaves it, and the calls made. `ret` is `none` when the run left defined
behaviour (an array access out of range in the palette expansion). -/
structure ReadResult where
  ret : Option (Except Exn Bool)
  img : SipiImage
  trace : List Call

/-- Lines 556-564 of `read`: the conversion from YCbCr and the scaling. -/
def post_process (env : Env) (size : Option SipiSize) (g : Restrictions) (img : SipiImage) :
    SipiImage × List Call :=
  let r1 : SipiImage × List Call :=
    if img.photo = .YCBCR then
      ({ img with pixels := env.ycc2rgb img, photo := PhotometricInterpretation.RGB },
        [.convertYCC2RGB])
    else (img, [])
  if size.isSome && !g.redonly then
    ({ r1.1 with nx := g.nnx, ny := g.nny, pixels := env.resample r1.1 g.nnx g.nny },
      r1.2 ++ [.scale g.nnx g.nny])
  else r1

/-- Lines 227-278 of `read`: the container is opened and its boxes scanned, or the file is
opened as a raw codestream. -/
def open_source (env : Env) (img : SipiImage) : SipiImage × List Call :=
  match env.jpx with
  | none => (img, [.src_open, .jpx_open, .src_close, .file_open])
  | some j =>
    (scan_boxes env.ctors env.stack img j.boxes, [.src_open, .jpx_open, .box_scan, .open_stream])

/-- Lines 280-297 of `read`: the codestream is created and the essentials comment read. -/
def read_comment (cs : kdu_codestream) (img : SipiImage) : SipiImage :=
  match find_essentials cs.comments with
  | some e => { img with essentials := some e }
  | none => img

/-- Lines 346-355 of `read`: geometry, bit depth and component count of the image. -/
def set_geometry (cs : kdu_codestream) (g : Restrictions) (img : SipiImage) : SipiImage :=
  let dims := cs.get_dims g.reduce (if g.do_roi then some g.roi else none)
  { img with nx := to_size_t dims.size_x, ny := to_size_t dims.size_y,
             bps := to_size_t cs.bit_depth, nc := to_size_t cs.num_components }

/-- Lines 342-565 of `read`: everything after the restrictions `g` have been worked out;
`img1` and `tr1` are the image and the calls made up to there. -/
def decode (env : Env) (size : Option SipiSize) (force_bps_8 : Bool) (g : Restrictions)
    (img1 : SipiImage) (tr1 : List Call) : ReadResult :=
  let tr2 := tr1 ++
    [Call.apply_input_restrictions g.reduce (if g.do_roi then some g.roi else none)]
  let img2 := set_geometry env.codestream g img1
  match resolve_layer env.sp env.jpx img2 with
  | .error (e, img3) => ⟨some (.error (.image_error e)), img3, tr2⟩
  | .ok r =>
    match infer_photo r.img.photo r.numcol with
    | .error e => ⟨some (.error (.image_error e)), r.img, tr2⟩
    | .ok photo =>
      let img4 := { r.img with photo := photo }
      let p := pull_pixels env.codestream img4 force_bps_8
      match p.1 with
      | .error e => ⟨some (.error (.image_error e)), img4, tr2 ++ p.2⟩
      | .ok img5 =>
        let expanded : Option SipiImage :=
          match r.luts with
          | some l => expand_palette env.heap img5 r.numcol l
          | none => some img5
        match expanded with
        | none => ⟨none, img5, tr2 ++ p.2⟩
        | some img6 =>
          let q := post_process env size g img6
          ⟨some (.ok true), q.1, tr2 ++ p.2 ++ q.2⟩

/-- The method `SipiIOJ2k::read`. -/
def read (env : Env) (img : SipiImage) (region : Option SipiRegion) (size : Option SipiSize)
    (force_bps_8 : Bool) : ReadResult :=
  if !is_jpx env.file env.stack then ⟨some (.ok false), img, []⟩
  else
    let o := open_source env img
    let tr1 := o.2 ++ [Call.codestream_create]
    if env.create_fails then ⟨some (.error .kdu_exception), o.1, tr1⟩
    else
      let img1 := read_comment env.codestream o.1
      match restrictions env.codestream region size with
      | .error e =>
        ⟨some (.error e), img1, tr1 ++ [.codestream_destroy, .input_close, .jpx_close]⟩
      | .ok g => decode env size force_bps_8 g img1 tr1

/-! ## `SipiIOJ2k::getDim` -/

/-- The outcome of `getDim`: the value returned (or the exception thrown), the two output
arguments as the call leaves them, and the calls made. -/
structure DimResult where
  ret : Except Exn Bool
  width : Nat
  height : Nat
  trace : List Call

/-- The method `SipiIOJ2k::getDim`. -/
def getDim (env : Env) (width height : Nat) : DimResult :=
  if !is_jpx env.file env.stack then ⟨.ok false, width, height, []⟩
  else
    let tr1 : List Call :=
      match env.jpx with
      | none => [.src_open, .jpx_open, .src_close, .file_open, .codestream_create]
      | some _ => [.src_open, .jpx_open, .open_stream, .codestream_create]
    if env.create_fails then ⟨.error .kdu_exception, width, height, tr1⟩
    else
      ⟨.ok true, to_size_t env.codestream.siz_nx, to_size_t env.codestream.siz_ny,
        tr1 ++ [.codestream_destroy, .input_close, .jpx_close]⟩

/-! ## `SipiIOJ2k::write` -/

/-- The argument of `jp2_family_colour.init`: a colour-space enumerator or the bytes of an
ICC profile. -/
inductive ColourInit
  | space (s : jp2_colour_space)
  | icc_profile (icc_bytes : List Nat)
  deriving DecidableEq, Repr

/-- The calls made on `jp2_family_channels`: the argument of `init`, and the argument pairs
`(colour_idx, codestream_component)` of `set_colour_mapping` and `set_opacity_mapping`, in
call order. -/
structure ChannelMap where
  num_colours : ℤ
  colour_mapping : List (ℤ × ℤ)
  opacity_mapping : List (ℤ × ℤ)
  deriving DecidableEq, Repr

/-- Everything outside `SipiIOJ2k.cpp` that a call of `write` depends on: the accessors
`getProfileType` and `iccBytes` of `SipiIcc`, the memory that follows the `len` bytes of the
buffer that `xmpBytes` hands out, and whether the engine reports an error (through
`kdu_sipi_error`) while the stripe is pushed. -/
structure WriteEnv where
  getProfileType : SipiIcc → PredefinedProfiles
  iccBytes : SipiIcc → List Nat
  xmp_tail : List Nat
  push_fails : Bool

/-- Lines 731-802 of `write`: the colour box. `none` when `init` is not called. The
`default` label of the first `switch` serves the profile types not named in the file; it
embeds the profile bytes like `icc_undefined`. -/
def colour_init (w : WriteEnv) (img : SipiImage) : Option ColourInit :=
  match img.icc with
  | some icc =>
    match w.getProfileType icc with
    | .icc_undefined => some (.icc_profile (w.iccBytes icc))
    | .icc_unknown => some (.icc_profile (w.iccBytes icc))
    | .icc_sRGB => some (.space .JP2_sRGB_SPACE)
    | .icc_AdobeRGB => some (.icc_profile (w.iccBytes icc))
    | .icc_RGB => some (.icc_profile (w.iccBytes icc))
    | .icc_CYMK_standard => some (.space .JP2_CMYK_SPACE)
    | .icc_GRAY_D50 => some (.icc_profile (w.iccBytes icc))
    | .icc_LUM_D65 => some (.space .JP2_sLUM_SPACE)
    | .icc_ROMM_GRAY => some (.space .JP2_sLUM_SPACE)
  | none =>
    let n := sub_size_t img.nc img.es.length
    if n = 1 then some (.space .JP2_sLUM_SPACE)
    else if n = 3 then some (.space .JP2_sRGB_SPACE)
    else if n = 4 then some (.space .JP2_CMYK_SPACE)
    else none

/-- Lines 803-805 of `write`: the channel box. -/
def channel_map (img : SipiImage) : ChannelMap :=
  { num_colours := to_int (sub_size_t img.nc img.es.length)
    colour_mapping :=
      (List.range (sub_size_t img.nc img.es.length)).map (fun c => ((c : ℤ), (c : ℤ)))
    opacity_mapping :=
      (List.range img.es.length).map (fun c => (to_int (img.nc + c), to_int (img.nc + c))) }

/-- Lines 808-832 of `write`: the metadata boxes, in the order written. The pointer handed
to `write_xmp_box` designates the `len` bytes of the blob and whatever follows them. -/
def metadata_boxes (w : WriteEnv) (img : SipiImage) : List OutBox :=
  (match img.iptc with
    | some b => [write_iptc_box b b.length]
    | none => []) ++
  (match img.exif with
    | some b => [write_exif_box b b.length]
    | none => []) ++
  (match img.xmp with
    | some b => if b.length > 0 then [write_xmp_box (b ++ w.xmp_tail)] else []
    | none => [])

/-- The outcome of `write`: normal return or the exception thrown, what the colour and
channel boxes were initialised with, the codestream comment, the metadata boxes, and the
calls made. -/
structure WriteResult where
  ret : Except Exn Unit
  colour : Option ColourInit
  channels : ChannelMap
  comment : Option String
  boxes : List OutBox
  trace : List Call

/-- The method `SipiIOJ2k::write`. -/
def write (w : WriteEnv) (img : SipiImage) : WriteResult :=
  let boxes := metadata_boxes w img
  let tr1 : List Call :=
    [.tgt_open, .jpx_out_open, .codestream_create, .write_headers] ++
      boxes.map (fun b => Call.write_box b.target_size b.body) ++
      [.open_stream, .compressor_start]
  let pushed : Except Exn (List Call) :=
    if img.bps = 16 then
      if w.push_fails then .error (.image_error .problem_writing) else .ok [.push_stripe 2]
    else if img.bps = 8 then
      if w.push_fails then .error (.image_error .problem_writing) else .ok [.push_stripe 1]
    else .error (.image_error .unsupported_bps)
  match pushed with
  | .ok tr2 =>
    { ret := .ok (), colour := colour_init w img, channels := channel_map img,
      comment := img.essentials.map (fun e => "SIPI:" ++ e), boxes := boxes,
      trace := tr1 ++ tr2 ++
        [.compressor_finish, .codestream_destroy, .output_close, .jpx_out_close, .tgt_close] }
  | .error e =>
    { ret := .error e, colour := colour_init w img, channels := channel_map img,
      comment := img.essentials.map (fun e => "SIPI:" ++ e), boxes := boxes, trace := tr1 }

/-! ## Concrete instances -/

/-- The value of `numcol` after line 469 of `read`. -/
def numcol_of (jpx : Option jpx_source) (nc : Nat) : ℤ :=
  match jpx with
  | some j =>
    match j.layer with
    | some layer => layer.num_colours
    | none => to_int nc
  | none => to_int nc

/-- An image object as `read` receives it: nothing set yet. -/
def blank_image : SipiImage :=
  { nx := 0, ny := 0, nc := 0, bps := 0, es := [], photo := .INVALID, icc := none, xmp := none,
    iptc := none, exif := none, essentials := none, pixels := [] }

/-- Metadata constructors that accept every blob. -/
def accept_all : MetaCtors :=
  { xmp_ok := fun _ => true, iptc_ok := fun _ => true, exif_ok := fun _ => true }

/-- A codestream of 2 x 1 pixels with the given bit depth and component count whose samples
all decode to 1. -/
def flat_codestream (bit_depth num_components : ℤ) : kdu_codestream :=
  { comments := [], siz_nx := 2, siz_ny := 1, get_dims := fun _ _ => ⟨0, 0, 2, 1⟩,
    bit_depth := bit_depth, num_components := num_components,
    stripe := fun b => List.replicate (2 * num_components.toNat * b) 1 }

/-- A raw codestream file (it starts with `FF 4F FF 51`) with the given bit depth and
component count. -/
def raw_env (bit_depth num_components : ℤ) : Env :=
  { file := some [0xff, 0x4f, 0xff, 0x51], stack := [], heap := fun _ => 0, ctors := accept_all,
    jpx := none, codestream := flat_codestream bit_depth num_components,
    ycc2rgb := fun i => i.pixels, resample := fun i _ _ => i.pixels, sp := kdu_space_value,
    create_fails := false }

/-- A JP2 file (it starts with the signature box) of one 8-bit component, with the given
boxes, palette and layer. -/
def jp2_env (boxes : List Box) (palette : jp2_palette) (layer : jpx_layer_source) : Env :=
  { file := some [0x00, 0x00, 0x00, 0x0C, 0x6A, 0x50, 0x20, 0x20, 0x0D, 0x0A, 0x87, 0x0A],
    stack := [], heap := fun _ => 0, ctors := accept_all,
    jpx := some { boxes := boxes, palette := palette, layer := some layer },
    codestream := flat_codestream 8 1,
    ycc2rgb := fun i => i.pixels, resample := fun i _ _ => i.pixels, sp := kdu_space_value,
    create_fails := false }

/-- A palette without lookup tables. -/
def no_palette : jp2_palette := { num_luts := 0, num_entries := 0, lut := fun _ _ => 0 }

/-- The restrictions that `read` works out when neither a region nor a size is given. -/
def full_image : Restrictions :=
  { do_roi := false, roi := ⟨0, 0, 0, 0⟩, reduce := 0, nnx := 0, nny := 0, redonly := true }

/-- An image of one pixel with 4 components, the last of them flagged as associated alpha,
without ICC profile and without metadata. -/
def rgba_image : SipiImage :=
  { nx := 1, ny := 1, nc := 4, bps := 8, es := [.ASSOCALPHA], photo := .RGB, icc := none,
    xmp := none, iptc := none, exif := none, essentials := none, pixels := [10, 20, 30, 255] }

/-- Accessors of `SipiIcc` for concrete instances: a predefined profile reports its type,
any other one `icc_unknown`; embedded bytes are handed back as they are; the XMP buffer is
followed by a zero byte. -/
def plain_write_env : WriteEnv :=
  { getProfileType := fun icc =>
      match icc with
      | .predefined p => p
      | _ => .icc_unknown
    iccBytes := fun icc =>
      match icc with
      | .from_bytes b => b
      | _ => []
    xmp_tail := [0]
    push_fails := false }

/-- A palette of three lookup tables with two entries each: `-0.5` and the largest `float`
below `0.5`. -/
def two_entry_palette : jp2_palette :=
  { num_luts := 3, num_entries := 2,
    lut := fun _ i => if i = 0 then -1 / 2 else 1 / 2 - 1 / 2 ^ 25 }

/-- The boxes of a written file as the box scan of `read` meets them. -/
def as_read_boxes (boxes : List OutBox) : List Box :=
  boxes.map (fun b => { is_uuid := true, content := b.body })

/-- The new buffer `buf` once the pixels `0 .. n-1` (in row order) have been expanded: it
has the size of the fresh buffer `tmp`, pixel `k < n` with index value `i` has its triplet
`(rlut[i], glut[i], blut[i])` at offset `3 * k`, and the bytes from `3 * n` on are still
those of `tmp`. -/
def expanded_upto (l : Luts) (pixels tmp buf : List Nat) (n : Nat) : Prop :=
  buf.length = tmp.length ∧
  (∀ k, k < n → ∃ i r g b, pixels[k]? = some i ∧ l.rlut[i]? = some r ∧ l.glut[i]? = some g ∧
      l.blut[i]? = some b ∧ buf[3 * k]? = some r ∧ buf[3 * k + 1]? = some g ∧
      buf[3 * k + 2]? = some b) ∧
  (∀ j, 3 * n ≤ j → buf[j]? = tmp[j]?)

/-- A raw codestream file on whose header the engine reports an error during
`codestream.create`. -/
def engine_failing_env : Env := { raw_env 8 3 with create_fails := true }

/-- The environment `plain_write_env` with an engine error while the stripe is pushed. -/
def push_failing_env : WriteEnv := { plain_write_env with push_fails := true }

/-- An image of one grayscale pixel that carries the given ICC profile. -/
def grey_image (icc : SipiIcc) : SipiImage :=
  { nx := 1, ny := 1, nc := 1, bps := 8, es := [], photo := .MINISBLACK, icc := some icc,
    xmp := none, iptc := none, exif := none, essentials := none, pixels := [128] }

/-- The 8 bytes of the PNG signature. -/
def png_signature : List Nat := [0x89, 0x50, 0x4E, 0x47, 0x0D, 0x0A, 0x1A, 0x0A]

/-- The first 48 bytes of a PNG stream: the signature, the `IHDR` chunk of a 1 x 1 grayscale
image, and a `tEXt` chunk with the keyword `abc` whose text starts, at offset 45, with the
two Latin-1 characters `FF 52`. -/
def png_with_marker : List Nat :=
  png_signature ++
  [0x00, 0x00, 0x00, 0x0D, 0x49, 0x48, 0x44, 0x52, 0x00, 0x00, 0x00, 0x01, 0x00, 0x00, 0x00, 0x01,
   0x08, 0x00, 0x00, 0x00, 0x00, 0x3A, 0x7E, 0x9B, 0x55] ++
  [0x00, 0x00, 0x00, 0x07, 0x74, 0x45, 0x58, 0x74, 0x61, 0x62, 0x63, 0x00, 0xFF, 0x52, 0x21]

/-- The first 41 bytes of a PNG stream: the signature, the `IHDR` chunk of a 1 x 1 grayscale
image, and the head of an `IDAT` chunk. -/
def png_plain : List Nat :=
  png_signature ++
  [0x00, 0x00, 0x00, 0x0D, 0x49, 0x48, 0x44, 0x52, 0x00, 0x00, 0x00, 0x01, 0x00, 0x00, 0x00, 0x01,
   0x08, 0x00, 0x00, 0x00, 0x00, 0x3A, 0x7E, 0x9B, 0x55] ++
  [0x00, 0x00, 0x00, 0x0A, 0x49, 0x44, 0x41, 0x54]

/-- Line 497 of `read`: the array `stripe_heights`, of 4 entries. -/
def stripe_heights (dims : kdu_dims) : List ℤ :=
  [dims.size_y, dims.size_y, dims.size_y, dims.size_y]

/-- The entries of `stripe_heights` that `pull_stripe` reads at lines 504, 511 and 519: one
for every component of the codestream; `none` stands for a read outside the array. -/
def stripe_heights_read (cs : kdu_codestream) (g : Restrictions) : List (Option ℤ) :=
  (List.range (to_size_t cs.num_components)).map
    (fun c => (stripe_heights (cs.get_dims g.reduce (if g.do_roi then some g.roi else none)))[c]?)

/-- A JP2 file of five 8-bit components whose layer reports 4 colour channels and whose
colour descriptor reports CMYK (code 12): CMYK with an alpha channel. -/
def cmyk_alpha_env : Env :=
  { jp2_env [] no_palette ⟨4, some ⟨12, []⟩⟩ with codestream := flat_codestream 8 5 }

/-- A JP2 file with the two-entry palette and an sRGB colour descriptor whose two samples
have the value 5. -/
def wide_index_env : Env :=
  { jp2_env [] two_entry_palette ⟨3, some ⟨16, []⟩⟩ with
    codestream := { flat_codestream 8 1 with stripe := fun _ => [5, 5] } }

/-! ## Theorems -/

theorem memcmp_eq_posix_read (sig content stack : List Nat) (count off : Nat)
    (h : off + sig.length ≤ (content.take count).length) :
    memcmp_eq sig (posix_read content count stack).2 off
      = decide ((content.drop off).take sig.length = sig) := by
  unfold memcmp_eq posix_read
  simp only []
  congr 1
  have h1 : ((content.take count ++ (stack.take count).drop (content.take count).length).drop
      off).take sig.length = ((content.take count).drop off).take sig.length := by
    rw [List.drop_append_of_le_length (by omega)]
    rw [List.take_append_of_le_length (by simp only [List.length_drop]; omega)]
  rw [h1]
  have h2 : ((content.take count).drop off).take sig.length
      = (content.drop off).take sig.length := by
    rw [List.drop_take, List.take_take]
    congr 1
    simp only [List.length_take] at h
    omega
  rw [h2]

theorem is_jpx_some (content stack : List Nat) :
    is_jpx (some content) stack = true ↔
        ((min 48 content.length ≥ 47 ∧ (content.drop 45).take 2 = [0xff, 0x52]) ∨
         (min 48 content.length ≥ 4 ∧ content.take 4 = [0xff, 0x4f, 0xff, 0x51]) ∨
         (min 48 content.length ≥ 12 ∧
            content.take 12
              = [0x00, 0x00, 0x00, 0x0C, 0x6A, 0x50, 0x20, 0x20, 0x0D, 0x0A, 0x87, 0x0A])) := by
  have hn : (posix_read content 48 stack).1 = ((min 48 content.length : Nat) : Int) := by
    simp [posix_read, List.length_take]
  have hlen : (content.take 48).length = min 48 content.length := by
    simp [List.length_take]
  unfold is_jpx
  simp only [hn]
  by_cases h47 : min 48 content.length ≥ 47
  · have e0 := memcmp_eq_posix_read sig0 content stack 48 45 (by simp only [sig0, List.length_cons, List.length_nil]; omega)
    have e1 := memcmp_eq_posix_read sig1 content stack 48 0 (by simp only [sig1, List.length_cons, List.length_nil]; omega)
    have e2 := memcmp_eq_posix_read sig2 content stack 48 0 (by simp only [sig2, List.length_cons, List.length_nil]; omega)
    rw [e0, e1, e2]
    have a47 : ((min 48 content.length : Nat) : Int) ≥ 47 := by omega
    have a4 : ((min 48 content.length : Nat) : Int) ≥ 4 := by omega
    have a12 : ((min 48 content.length : Nat) : Int) ≥ 12 := by omega
    have b4 : min 48 content.length ≥ 4 := by omega
    have b12 : min 48 content.length ≥ 12 := by omega
    simp only [a47, a4, a12, h47, b4, b12, decide_True, Bool.true_and, true_and, sig0, sig1,
      sig2, List.length_cons, List.length_nil, List.drop_zero]
    by_cases c0 : (content.drop 45).take 2 = [0xff, 0x52]
    · simp [c0]
    · by_cases c1 : content.take 4 = [0xff, 0x4f, 0xff, 0x51]
      · simp [c0, c1]
      · simp [c0, c1]
  · have a47 : ¬ ((min 48 content.length : Nat) : Int) ≥ 47 := by omega
    simp only [a47, h47, decide_False, Bool.false_and, false_and, false_or]
    by_cases h12 : min 48 content.length ≥ 12
    · have e1 := memcmp_eq_posix_read sig1 content stack 48 0 (by simp only [sig1, List.length_cons, List.length_nil]; omega)
      have e2 := memcmp_eq_posix_read sig2 content stack 48 0 (by simp only [sig2, List.length_cons, List.length_nil]; omega)
      rw [e1, e2]
      have a4 : ((min 48 content.length : Nat) : Int) ≥ 4 := by omega
      have a12 : ((min 48 content.length : Nat) : Int) ≥ 12 := by omega
      have b4 : min 48 content.length ≥ 4 := by omega
      simp only [a4, a12, h12, b4, decide_True, Bool.true_and, true_and, sig1,
        sig2, List.length_cons, List.length_nil, List.drop_zero]
      by_cases c1 : content.take 4 = [0xff, 0x4f, 0xff, 0x51]
      · simp [c1]
      · simp [c1]
    · have a12 : ¬ ((min 48 content.length : Nat) : Int) ≥ 12 := by omega
      simp only [a12, h12, decide_False, Bool.false_and, false_and, or_false]
      by_cases h4 : min 48 content.length ≥ 4
      · have e1 := memcmp_eq_posix_read sig1 content stack 48 0 (by simp only [sig1, List.length_cons, List.length_nil]; omega)
        rw [e1]
        have a4 : ((min 48 content.length : Nat) : Int) ≥ 4 := by omega
        simp only [a4, h4, decide_True, Bool.true_and, true_and, sig1,
          List.length_cons, List.length_nil, List.drop_zero]
        by_cases c1 : content.take 4 = [0xff, 0x4f, 0xff, 0x51]
        · simp [c1]
        · simp [c1]
      · have a4 : ¬ ((min 48 content.length : Nat) : Int) ≥ 4 := by omega
        simp only [a4, h4, decide_False, Bool.false_and, false_and]
        simp

/-- C3: `is_jpx` answers true exactly when, with `n` the number of bytes obtained from the
read of at most 48 leading bytes, `n ≥ 47` and bytes 45..46 are `FF 52`, or `n ≥ 4` and bytes
0..3 are `FF 4F FF 51`, or `n ≥ 12` and bytes 0..11 are the JP2 signature box; the answer does
not depend on what `testbuf` held before. A source that cannot be opened, or that yields
fewer than 4 bytes, is not this format. -/
theorem is_jpx_iff (file : Option (List Nat)) (stack : List Nat) :
    (is_jpx file stack = true ↔
      ∃ content, file = some content ∧
        ((min 48 content.length ≥ 47 ∧ (content.drop 45).take 2 = [0xff, 0x52]) ∨
         (min 48 content.length ≥ 4 ∧ content.take 4 = [0xff, 0x4f, 0xff, 0x51]) ∨
         (min 48 content.length ≥ 12 ∧
            content.take 12
              = [0x00, 0x00, 0x00, 0x0C, 0x6A, 0x50, 0x20, 0x20, 0x0D, 0x0A, 0x87, 0x0A])))
    ∧ is_jpx none stack = false
    ∧ (∀ content, content.length < 4 → is_jpx (some content) stack = false) := by
  have key := fun content : List Nat => is_jpx_some content stack
  refine ⟨?_, rfl, ?_⟩
  · cases file with
    | none => simp [is_jpx]
    | some content =>
      rw [key content]
      constructor
      · intro h
        exact ⟨content, rfl, h⟩
      · rintro ⟨c, hc, h⟩
        cases hc
        exact h
  · intro content hlt
    cases hres : is_jpx (some content) stack with
    | false => rfl
    | true =>
      rcases (key content).mp hres with h | h | h <;> omega

/-! ### The colour table of `read` -/

theorem kdu_space_value_distinct : case_labels_distinct kdu_space_value := by
  refine ⟨?_, ?_⟩
  · intro a b h
    cases a <;> cases b <;> first | rfl | (simp [kdu_space_value] at h)
  · intro s
    cases s <;> simp [kdu_space_value]

theorem resolve_layer_colour (sp : jp2_colour_space → ℤ) (j : jpx_source)
    (l : jpx_layer_source) (c : jp2_colour) (img : SipiImage) (hl : j.layer = some l)
    (hc : l.colour = some c) :
    resolve_layer sp (some j) img =
      match colour_switch sp c.space c.icc_profile with
      | .ok (photo, icc) =>
        .ok { img := { img with es := push_alpha img.nc l.num_colours img.es, photo := photo,
                                icc := some icc },
              numcol := l.num_colours, luts := read_luts j.palette }
      | .error e =>
        .error (e, { img with es := push_alpha img.nc l.num_colours img.es,
                              photo := PhotometricInterpretation.INVALID }) := by
  simp only [resolve_layer, layer_branch, hl, hc]

theorem read_eq_decode (env : Env) (img : SipiImage) (region : Option SipiRegion)
    (size : Option SipiSize) (force_bps_8 : Bool) (g : Restrictions)
    (hj : is_jpx env.file env.stack = true) (hc : env.create_fails = false)
    (hg : restrictions env.codestream region size = .ok g) :
    read env img region size force_bps_8 =
      decode env size force_bps_8 g (read_comment env.codestream (open_source env img).1)
        ((open_source env img).2 ++ [Call.codestream_create]) := by
  simp only [read, hj, hc, hg, Bool.not_true, Bool.false_eq_true, if_false]

/-- C1: the `switch (space)` of `read` maps the colour-space code by a fixed table (sRGB,
CMYK, YCbCr1, YCbCr2 and YCbCr3, iccRGB and iccANY, sLUM, sYCC, the code 100), the image
gets the photometric and the ICC profile of the table, and for every other code `read`
throws "Unsupported ICC profile" instead of choosing a photometric. -/
theorem colour_switch_table (sp : jp2_colour_space → ℤ) (hsp : case_labels_distinct sp)
    (icc_profile : List Nat) :
    colour_switch sp (sp .JP2_sRGB_SPACE) icc_profile
      = .ok (.RGB, .predefined .icc_sRGB) ∧
    colour_switch sp (sp .JP2_CMYK_SPACE) icc_profile
      = .ok (.SEPARATED, .predefined .icc_CYMK_standard) ∧
    colour_switch sp (sp .JP2_YCbCr1_SPACE) icc_profile
      = .ok (.YCBCR, .predefined .icc_sRGB) ∧
    colour_switch sp (sp .JP2_YCbCr2_SPACE) icc_profile
      = .ok (.YCBCR, .from_primaries whitepoint primaries) ∧
    colour_switch sp (sp .JP2_YCbCr3_SPACE) icc_profile
      = .ok (.YCBCR, .from_primaries whitepoint primaries) ∧
    colour_switch sp (sp .JP2_iccRGB_SPACE) icc_profile
      = .ok (.RGB, .from_bytes icc_profile) ∧
    colour_switch sp (sp .JP2_iccANY_SPACE) icc_profile
      = .ok (.RGB, .from_bytes icc_profile) ∧
    colour_switch sp (sp .JP2_sLUM_SPACE) icc_profile
      = .ok (.MINISBLACK, .predefined .icc_LUM_D65) ∧
    colour_switch sp (sp .JP2_sYCC_SPACE) icc_profile
      = .ok (.YCBCR, .predefined .icc_sRGB) ∧
    colour_switch sp 100 icc_profile
      = .ok (.MINISBLACK, .predefined .icc_ROMM_GRAY) ∧
    (∀ space : ℤ, (∀ s, space ≠ sp s) → space ≠ 100 →
      colour_switch sp space icc_profile = .error (.unsupported_icc_profile space)) ∧
    (∀ (j : jpx_source) (l : jpx_layer_source) (c : jp2_colour) (img : SipiImage)
        (photo : PhotometricInterpretation) (icc : SipiIcc),
      j.layer = some l → l.colour = some c → c.icc_profile = icc_profile →
      colour_switch sp c.space icc_profile = .ok (photo, icc) →
      ∃ r, resolve_layer sp (some j) img = .ok r ∧ r.img.photo = photo ∧
        r.img.icc = some icc) ∧
    (∀ (env : Env) (img : SipiImage) (region : Option SipiRegion) (size : Option SipiSize)
        (force_bps_8 : Bool) (g : Restrictions) (j : jpx_source) (l : jpx_layer_source)
        (c : jp2_colour),
      env.sp = sp → is_jpx env.file env.stack = true → env.create_fails = false →
      restrictions env.codestream region size = .ok g →
      env.jpx = some j → j.layer = some l → l.colour = some c →
      (∀ s, c.space ≠ sp s) → c.space ≠ 100 →
      (read env img region size force_bps_8).ret
        = some (.error (.image_error (.unsupported_icc_profile c.space)))) := by
  have inj := hsp.1
  have h100 : ∀ s, (100 : ℤ) ≠ sp s := fun s h => hsp.2 s h.symm
  have other : ∀ (icc : List Nat) (space : ℤ), (∀ s, space ≠ sp s) → space ≠ 100 →
      colour_switch sp space icc = .error (.unsupported_icc_profile space) := by
    intro icc space hs h
    simp [colour_switch, hs, h]
  refine ⟨?_, ?_, ?_, ?_, ?_, ?_, ?_, ?_, ?_, ?_, other icc_profile, ?_, ?_⟩
  · simp [colour_switch]
  · simp [colour_switch, inj.eq_iff]
  · simp [colour_switch, inj.eq_iff]
  · simp [colour_switch, inj.eq_iff]
  · simp [colour_switch, inj.eq_iff]
  · simp [colour_switch, inj.eq_iff]
  · simp [colour_switch, inj.eq_iff]
  · simp [colour_switch, inj.eq_iff]
  · simp [colour_switch, inj.eq_iff]
  · simp [colour_switch, h100]
  · intro j l c img photo icc hl hc hicc hsw
    rw [resolve_layer_colour sp j l c img hl hc, hicc, hsw]
    exact ⟨_, rfl, rfl, rfl⟩
  · intro env img region size force_bps_8 g j l c hsp' hj hcf hg hjpx hl hc hs h
    rw [read_eq_decode env img region size force_bps_8 g hj hcf hg]
    simp only [decode, hjpx, hsp']
    rw [resolve_layer_colour sp j l c _ hl hc, other c.icc_profile c.space hs h]

/-- The closed instance of C1: with the values of Kakadu's header, the code 255 is
refused. -/
theorem colour_switch_table_witness :
    case_labels_distinct kdu_space_value ∧
    colour_switch kdu_space_value 255 [] = .error (.unsupported_icc_profile 255) :=
  ⟨kdu_space_value_distinct,
    (colour_switch_table kdu_space_value kdu_space_value_distinct []).2.2.2.2.2.2.2.2.2.2.1 255
      (by intro s; cases s <;> simp [kdu_space_value]) (by decide)⟩

/-! ### Helper lemmas on the stages of `decode` -/

theorem to_int_to_size_t (n : ℤ) (h : -2 ^ 31 ≤ n ∧ n < 2 ^ 31) : to_int (to_size_t n) = n := by
  unfold to_int to_size_t
  have h1 : (0 : ℤ) ≤ n % 2 ^ 64 := Int.emod_nonneg _ (by norm_num)
  rw [Int.toNat_of_nonneg h1]
  omega

theorem to_size_t_eq_small (n : ℤ) (k : Nat) (h : -2 ^ 31 ≤ n ∧ n < 2 ^ 31) (hk : k < 2 ^ 31) :
    to_size_t n = k ↔ n = k := by
  unfold to_size_t
  have h1 : (0 : ℤ) ≤ n % 2 ^ 64 := Int.emod_nonneg _ (by norm_num)
  constructor
  · intro e
    have : ((n % 2 ^ 64).toNat : ℤ) = k := by rw [e]
    rw [Int.toNat_of_nonneg h1] at this
    omega
  · intro e
    subst e
    have : ((k : ℤ) % 2 ^ 64) = k := by omega
    rw [this]
    exact Int.toNat_natCast k

theorem resolve_layer_no_colour (sp : jp2_colour_space → ℤ) (jpx : Option jpx_source)
    (img : SipiImage)
    (hcol : ∀ j l, jpx = some j → j.layer = some l → l.colour = none) :
    ∃ r, resolve_layer sp jpx img = .ok r ∧ r.img.photo = .INVALID ∧
      r.numcol = numcol_of jpx img.nc ∧ r.img.nc = img.nc ∧ r.img.bps = img.bps := by
  cases jpx with
  | none => exact ⟨_, rfl, rfl, rfl, rfl, rfl⟩
  | some j =>
    cases hl : j.layer with
    | none =>
      refine ⟨⟨{ img with photo := .INVALID }, to_int img.nc, none⟩, ?_, rfl, ?_, rfl, rfl⟩
      · simp only [resolve_layer, hl]
      · simp only [numcol_of, hl]
    | some l =>
      have hc := hcol j l rfl hl
      refine ⟨⟨{ img with photo := .INVALID, es := push_alpha img.nc l.num_colours img.es },
        l.num_colours, read_luts j.palette⟩, ?_, rfl, ?_, rfl, rfl⟩
      · simp only [resolve_layer, layer_branch, hl, hc]
      · simp only [numcol_of, hl]

theorem pull_pixels_ok (cs : kdu_codestream) (img img5 : SipiImage) (force_bps_8 : Bool)
    (h : (pull_pixels cs img force_bps_8).1 = .ok img5) :
    img5.photo = img.photo ∧ img5.nc = img.nc ∧ img5.es = img.es ∧ img5.nx = img.nx ∧
    img5.ny = img.ny ∧
    ((force_bps_8 = true ∧ img5.bps = 8) ∨
     (force_bps_8 = false ∧
       ((img.bps = 8 ∧ img5.bps = 8) ∨ (img.bps = 12 ∧ img5.bps = 16) ∨
        (img.bps = 16 ∧ img5.bps = 16)))) := by
  unfold pull_pixels at h
  cases force_bps_8 with
  | true =>
    simp only [if_true] at h
    cases h
    simp
  | false =>
    simp only [Bool.false_eq_true, if_false] at h
    by_cases h8 : img.bps = 8
    · simp only [h8, if_true] at h
      cases h
      simp [h8]
    · by_cases h12 : img.bps = 12
      · simp only [h12, if_true] at h
        simp only [show ¬ (12 : Nat) = 8 by decide, if_false] at h
        cases h
        simp [h12]
      · by_cases h16 : img.bps = 16
        · simp only [h16, if_true] at h
          simp only [show ¬ (16 : Nat) = 8 by decide, show ¬ (16 : Nat) = 12 by decide,
            if_false] at h
          cases h
          simp [h16]
        · simp only [h8, h12, h16, if_false] at h
          cases h

theorem expand_palette_some (heap : Nat → Nat) (img img6 : SipiImage) (numcol : ℤ) (l : Luts)
    (h : expand_palette heap img numcol l = some img6) :
    img6.photo = img.photo ∧ img6.bps = img.bps ∧ img6.nc = to_size_t numcol ∧
    img6.es = img.es ∧ img6.nx = img.nx ∧ img6.ny = img.ny := by
  unfold expand_palette at h
  simp only [] at h
  split at h
  · cases h
    exact ⟨rfl, rfl, rfl, rfl, rfl, rfl⟩
  · cases h

theorem post_process_fields (env : Env) (size : Option SipiSize) (g : Restrictions)
    (img : SipiImage) :
    (post_process env size g img).1.photo = (if img.photo = .YCBCR then .RGB else img.photo) ∧
    (post_process env size g img).1.bps = img.bps ∧
    (post_process env size g img).1.nc = img.nc ∧
    (post_process env size g img).1.es = img.es := by
  unfold post_process
  by_cases hy : img.photo = .YCBCR <;> by_cases hs : (size.isSome && !g.redonly) = true <;>
    simp [hy, hs]

theorem decode_success (env : Env) (size : Option SipiSize) (force_bps_8 : Bool)
    (g : Restrictions) (img1 : SipiImage) (tr1 : List Call)
    (h : (decode env size force_bps_8 g img1 tr1).ret = some (.ok true)) :
    ∃ r photo img5 img6,
      resolve_layer env.sp env.jpx (set_geometry env.codestream g img1) = .ok r ∧
      infer_photo r.img.photo r.numcol = .ok photo ∧
      (pull_pixels env.codestream { r.img with photo := photo } force_bps_8).1 = .ok img5 ∧
      (match r.luts with
        | some l => expand_palette env.heap img5 r.numcol l
        | none => some img5) = some img6 ∧
      (decode env size force_bps_8 g img1 tr1).img = (post_process env size g img6).1 := by
  cases hres : resolve_layer env.sp env.jpx (set_geometry env.codestream g img1) with
  | error e =>
    simp [decode, hres] at h
  | ok r =>
    cases hinf : infer_photo r.img.photo r.numcol with
    | error e =>
      simp [decode, hres, hinf] at h
    | ok photo =>
      cases hpull : (pull_pixels env.codestream { r.img with photo := photo } force_bps_8).1 with
      | error e =>
        simp [decode, hres, hinf, hpull] at h
      | ok img5 =>
        cases hexp : (match r.luts with
            | some l => expand_palette env.heap img5 r.numcol l
            | none => some img5) with
        | none =>
          simp only [decode, hres, hinf, hpull, hexp] at h
          simp at h
        | some img6 =>
          refine ⟨r, photo, img5, img6, rfl, hinf, hpull, hexp, ?_⟩
          simp only [decode, hres, hinf, hpull, hexp]

theorem read_success (env : Env) (img : SipiImage) (region : Option SipiRegion)
    (size : Option SipiSize) (force_bps_8 : Bool)
    (h : (read env img region size force_bps_8).ret = some (.ok true)) :
    ∃ g, is_jpx env.file env.stack = true ∧ env.create_fails = false ∧
      restrictions env.codestream region size = .ok g ∧
      read env img region size force_bps_8 =
        decode env size force_bps_8 g (read_comment env.codestream (open_source env img).1)
          ((open_source env img).2 ++ [Call.codestream_create]) := by
  cases hj : is_jpx env.file env.stack with
  | false => simp [read, hj] at h
  | true =>
    cases hc : env.create_fails with
    | true => simp [read, hj, hc] at h
    | false =>
      cases hg : restrictions env.codestream region size with
      | error e => simp [read, hj, hc, hg] at h
      | ok g => exact ⟨g, rfl, rfl, rfl, read_eq_decode env img region size force_bps_8 g hj hc hg⟩

/-! ### Photometric from the colour-channel count -/

theorem infer_photo_invalid (n : ℤ) :
    infer_photo .INVALID n =
      if n = 1 then .ok .MINISBLACK else if n = 3 then .ok .RGB
      else if n = 4 then .ok .SEPARATED else .error .no_photometric := by
  simp [infer_photo]

/-- C2: when no colour descriptor sets the photometric, `read` infers it from `numcol`
alone: 1 gives grayscale, 3 gives RGB, 4 gives separated, and with every other count `read`
throws "No meaningful photometric interpretation possible"; without a layer, `numcol` is
the component count of the codestream. -/
theorem photometric_from_numcol (env : Env) (img : SipiImage) (region : Option SipiRegion)
    (size : Option SipiSize) (force_bps_8 : Bool) (g : Restrictions)
    (hj : is_jpx env.file env.stack = true) (hc : env.create_fails = false)
    (hg : restrictions env.codestream region size = .ok g)
    (hnc : -2 ^ 31 ≤ env.codestream.num_components ∧ env.codestream.num_components < 2 ^ 31)
    (hcol : ∀ j l, env.jpx = some j → j.layer = some l → l.colour = none) :
    (infer_photo .INVALID 1 = .ok .MINISBLACK ∧ infer_photo .INVALID 3 = .ok .RGB ∧
      infer_photo .INVALID 4 = .ok .SEPARATED ∧
      ∀ n : ℤ, n ≠ 1 → n ≠ 3 → n ≠ 4 → infer_photo .INVALID n = .error .no_photometric) ∧
    ((∀ j, env.jpx = some j → j.layer = none) →
      numcol_of env.jpx (to_size_t env.codestream.num_components)
        = env.codestream.num_components) ∧
    (numcol_of env.jpx (to_size_t env.codestream.num_components) ≠ 1 →
      numcol_of env.jpx (to_size_t env.codestream.num_components) ≠ 3 →
      numcol_of env.jpx (to_size_t env.codestream.num_components) ≠ 4 →
      (read env img region size force_bps_8).ret
        = some (.error (.image_error .no_photometric))) ∧
    ((read env img region size force_bps_8).ret = some (.ok true) →
      (numcol_of env.jpx (to_size_t env.codestream.num_components) = 1 ∧
        (read env img region size force_bps_8).img.photo = .MINISBLACK) ∨
      (numcol_of env.jpx (to_size_t env.codestream.num_components) = 3 ∧
        (read env img region size force_bps_8).img.photo = .RGB) ∨
      (numcol_of env.jpx (to_size_t env.codestream.num_components) = 4 ∧
        (read env img region size force_bps_8).img.photo = .SEPARATED)) := by
  obtain ⟨r, hres, hph, hnum, -, -⟩ := resolve_layer_no_colour env.sp env.jpx
    (set_geometry env.codestream g (read_comment env.codestream (open_source env img).1)) hcol
  have hnc' : (set_geometry env.codestream g
      (read_comment env.codestream (open_source env img).1)).nc
        = to_size_t env.codestream.num_components := rfl
  rw [hnc'] at hnum
  refine ⟨⟨by simp [infer_photo], by simp [infer_photo], by simp [infer_photo], ?_⟩, ?_, ?_, ?_⟩
  · intro n h1 h3 h4
    simp [infer_photo, h1, h3, h4]
  · intro hno
    cases hjpx : env.jpx with
    | none => simp only [numcol_of]; exact to_int_to_size_t _ hnc
    | some j =>
      have := hno j hjpx
      simp only [numcol_of, this]
      exact to_int_to_size_t _ hnc
  · intro h1 h3 h4
    rw [read_eq_decode env img region size force_bps_8 g hj hc hg]
    simp only [decode, hres, hph, hnum]
    rw [infer_photo_invalid]
    simp only [h1, h3, h4, if_false]
  · intro hok
    rw [read_eq_decode env img region size force_bps_8 g hj hc hg] at hok ⊢
    obtain ⟨r', photo, img5, img6, hres', hinf, hpull, hexp, himg⟩ :=
      decode_success env size force_bps_8 g _ _ hok
    rw [hres] at hres'
    cases hres'
    rw [hph, hnum, infer_photo_invalid] at hinf
    have h5 := (pull_pixels_ok _ _ _ _ hpull).1
    have h6 : img6.photo = photo := by
      cases hl : r.luts with
      | none =>
        rw [hl] at hexp
        simp only [Option.some.injEq] at hexp
        rw [← hexp, h5]
      | some l =>
        rw [hl] at hexp
        simp only [] at hexp
        rw [(expand_palette_some _ _ _ _ _ hexp).1, h5]
    rw [himg, (post_process_fields env size g img6).1, h6]
    by_cases h1 : numcol_of env.jpx (to_size_t env.codestream.num_components) = 1
    · simp [h1] at hinf
      subst hinf
      exact Or.inl ⟨h1, by simp⟩
    · by_cases h3 : numcol_of env.jpx (to_size_t env.codestream.num_components) = 3
      · simp [h3] at hinf
        subst hinf
        exact Or.inr (Or.inl ⟨h3, by simp⟩)
      · by_cases h4 : numcol_of env.jpx (to_size_t env.codestream.num_components) = 4
        · simp [h4] at hinf
          subst hinf
          exact Or.inr (Or.inr ⟨h4, by simp⟩)
        · simp only [h1, h3, h4, if_false] at hinf
          cases hinf

/-- The closed instance of C2: a raw codestream of two components is refused. -/
theorem photometric_from_numcol_witness :
    (read (raw_env 8 2) blank_image none none false).ret
      = some (.error (.image_error .no_photometric)) :=
  (photometric_from_numcol (raw_env 8 2) blank_image none none false full_image
    (by decide) rfl rfl (by decide) (by intro j l h; cases h)).2.2.1
    (by decide) (by decide) (by decide)

/-! ### Bit depth -/

theorem resolve_layer_ok_fields (sp : jp2_colour_space → ℤ) (jpx : Option jpx_source)
    (img : SipiImage) (r : Resolved) (h : resolve_layer sp jpx img = .ok r) :
    r.img.bps = img.bps ∧ r.img.nc = img.nc ∧ r.img.nx = img.nx ∧ r.img.ny = img.ny := by
  unfold resolve_layer at h
  simp only [] at h
  cases jpx with
  | none =>
    simp only [Except.ok.injEq] at h
    subst h
    exact ⟨rfl, rfl, rfl, rfl⟩
  | some j =>
    simp only [] at h
    cases hl : j.layer with
    | none =>
      rw [hl] at h
      simp only [Except.ok.injEq] at h
      subst h
      exact ⟨rfl, rfl, rfl, rfl⟩
    | some l =>
      rw [hl] at h
      simp only [layer_branch] at h
      cases hc : l.colour with
      | none =>
        rw [hc] at h
        simp only [Except.ok.injEq] at h
        subst h
        exact ⟨rfl, rfl, rfl, rfl⟩
      | some c =>
        rw [hc] at h
        simp only [] at h
        cases hsw : colour_switch sp c.space c.icc_profile with
        | error e =>
          rw [hsw] at h
          cases h
        | ok v =>
          rw [hsw] at h
          simp only [Except.ok.injEq] at h
          subst h
          exact ⟨rfl, rfl, rfl, rfl⟩

theorem pull_pixels_error (cs : kdu_codestream) (img : SipiImage) (h8 : img.bps ≠ 8)
    (h12 : img.bps ≠ 12) (h16 : img.bps ≠ 16) :
    pull_pixels cs img false =
      (.error .unsupported_bps,
        [.decompressor_start, .decompressor_finish, .codestream_destroy, .input_close,
         .jpx_close]) := by
  simp [pull_pixels, h8, h12, h16]

/-- C4: with the force-8-bit flag the bit depth becomes 8 whatever the native depth `d` of
component 0 is, and the 16-bit stripe pull is not made; without the flag `d = 8` gives 8,
`d = 12` gives 16, `d = 16` gives 16, and with every other `d` the read throws. After every
successful read the bit depth of the image is 8 or 16. -/
theorem bit_depth_resolution (env : Env) (img : SipiImage) (region : Option SipiRegion)
    (size : Option SipiSize) (force_bps_8 : Bool) (g : Restrictions)
    (hj : is_jpx env.file env.stack = true) (hc : env.create_fails = false)
    (hg : restrictions env.codestream region size = .ok g)
    (hd : -2 ^ 31 ≤ env.codestream.bit_depth ∧ env.codestream.bit_depth < 2 ^ 31) :
    (∀ (cs : kdu_codestream) (im : SipiImage),
      (pull_pixels cs im true).1 = .ok { im with bps := 8, pixels := cs.stripe 1 } ∧
      Call.pull_stripe 2 ∉ (pull_pixels cs im true).2) ∧
    (∀ (cs : kdu_codestream) (im : SipiImage), im.bps = 8 →
      (pull_pixels cs im false).1 = .ok { im with bps := 8, pixels := cs.stripe 1 }) ∧
    (∀ (cs : kdu_codestream) (im : SipiImage), im.bps = 12 →
      (pull_pixels cs im false).1 = .ok { im with bps := 16, pixels := cs.stripe 2 }) ∧
    (∀ (cs : kdu_codestream) (im : SipiImage), im.bps = 16 →
      (pull_pixels cs im false).1 = .ok { im with bps := 16, pixels := cs.stripe 2 }) ∧
    (∀ (cs : kdu_codestream) (im : SipiImage), im.bps ≠ 8 → im.bps ≠ 12 → im.bps ≠ 16 →
      (pull_pixels cs im false).1 = .error .unsupported_bps) ∧
    (force_bps_8 = false → env.codestream.bit_depth ≠ 8 → env.codestream.bit_depth ≠ 12 →
      env.codestream.bit_depth ≠ 16 →
      ∃ e, (read env img region size force_bps_8).ret = some (.error (.image_error e))) ∧
    ((read env img region size force_bps_8).ret = some (.ok true) →
      (force_bps_8 = true ∧ (read env img region size force_bps_8).img.bps = 8) ∨
      (force_bps_8 = false ∧
        ((env.codestream.bit_depth = 8 ∧ (read env img region size force_bps_8).img.bps = 8) ∨
         (env.codestream.bit_depth = 12 ∧
            (read env img region size force_bps_8).img.bps = 16) ∨
         (env.codestream.bit_depth = 16 ∧
            (read env img region size force_bps_8).img.bps = 16)))) := by
  refine ⟨?_, ?_, ?_, ?_, ?_, ?_, ?_⟩
  · intro cs im
    simp [pull_pixels]
  · intro cs im h
    simp [pull_pixels, h]
  · intro cs im h
    simp [pull_pixels, h]
  · intro cs im h
    simp [pull_pixels, h]
  · intro cs im h8 h12 h16
    rw [pull_pixels_error cs im h8 h12 h16]
  · intro hf h8 h12 h16
    subst hf
    rw [read_eq_decode env img region size false g hj hc hg]
    cases hres : resolve_layer env.sp env.jpx (set_geometry env.codestream g
        (read_comment env.codestream (open_source env img).1)) with
    | error e =>
      obtain ⟨e1, e2⟩ := e
      exact ⟨e1, by simp only [decode, hres]⟩
    | ok r =>
      cases hinf : infer_photo r.img.photo r.numcol with
      | error e => exact ⟨e, by simp only [decode, hres, hinf]⟩
      | ok photo =>
        have hb : r.img.bps = to_size_t env.codestream.bit_depth :=
          (resolve_layer_ok_fields _ _ _ _ hres).1
        have n8 : r.img.bps ≠ 8 := by
          rw [hb]; intro h; exact h8 ((to_size_t_eq_small _ 8 hd (by norm_num)).mp h)
        have n12 : r.img.bps ≠ 12 := by
          rw [hb]; intro h; exact h12 ((to_size_t_eq_small _ 12 hd (by norm_num)).mp h)
        have n16 : r.img.bps ≠ 16 := by
          rw [hb]; intro h; exact h16 ((to_size_t_eq_small _ 16 hd (by norm_num)).mp h)
        refine ⟨.unsupported_bps, ?_⟩
        simp only [decode, hres, hinf]
        rw [pull_pixels_error env.codestream { r.img with photo := photo } n8 n12 n16]
  · intro hok
    rw [read_eq_decode env img region size force_bps_8 g hj hc hg] at hok ⊢
    obtain ⟨r, photo, img5, img6, hres, hinf, hpull, hexp, himg⟩ :=
      decode_success env size force_bps_8 g _ _ hok
    have hb : r.img.bps = to_size_t env.codestream.bit_depth :=
      (resolve_layer_ok_fields _ _ _ _ hres).1
    have h6 : img6.bps = img5.bps := by
      cases hl : r.luts with
      | none =>
        rw [hl] at hexp
        simp only [Option.some.injEq] at hexp
        rw [← hexp]
      | some l =>
        rw [hl] at hexp
        simp only [] at hexp
        rw [(expand_palette_some _ _ _ _ _ hexp).2.1]
    rw [himg, (post_process_fields env size g img6).2.1, h6]
    have h5 := (pull_pixels_ok _ _ _ _ hpull).2.2.2.2.2
    simp only [hb] at h5
    rcases h5 with ⟨hf, h5⟩ | ⟨hf, h5 | h5 | h5⟩
    · exact Or.inl ⟨hf, h5⟩
    · exact Or.inr ⟨hf, Or.inl ⟨(to_size_t_eq_small _ 8 hd (by norm_num)).mp h5.1, h5.2⟩⟩
    · exact Or.inr ⟨hf, Or.inr (Or.inl
        ⟨(to_size_t_eq_small _ 12 hd (by norm_num)).mp h5.1, h5.2⟩)⟩
    · exact Or.inr ⟨hf, Or.inr (Or.inr
        ⟨(to_size_t_eq_small _ 16 hd (by norm_num)).mp h5.1, h5.2⟩)⟩

/-- The closed instance of C4: a 12-bit raw codestream of three components is read, without
the flag, into an image of bit depth 16. -/
theorem bit_depth_resolution_witness :
    (read (raw_env 12 3) blank_image none none false).img.bps = 16 := by
  have h := (bit_depth_resolution (raw_env 12 3) blank_image none none false full_image
    (by decide) rfl rfl (by decide)).2.2.2.2.2.2 rfl
  rcases h with ⟨hf, _⟩ | ⟨_, ⟨h8, _⟩ | ⟨_, h⟩ | ⟨h16, _⟩⟩
  · cases hf
  · exact absurd h8 (by decide)
  · exact h
  · exact absurd h16 (by decide)

/-! ### The lookup-table entries -/

theorem round_half_even_ge_floor (q : ℚ) : ⌊q⌋ ≤ round_half_even q := by
  unfold round_half_even
  simp only []
  split_ifs <;> omega

theorem round_half_even_le_floor_succ (q : ℚ) : round_half_even q ≤ ⌊q⌋ + 1 := by
  unfold round_half_even
  simp only []
  split_ifs <;> omega

theorem round_half_even_intCast (k : ℤ) : round_half_even (k : ℚ) = k := by
  unfold round_half_even
  simp

theorem round_half_even_nonneg (q : ℚ) (h : 0 ≤ q) : 0 ≤ round_half_even q :=
  le_trans (Int.floor_nonneg.mpr h) (round_half_even_ge_floor q)

theorem round_half_even_le (q : ℚ) (k : ℤ) (h : q ≤ k) : round_half_even q ≤ k := by
  rcases eq_or_lt_of_le h with h | h
  · rw [h, round_half_even_intCast]
  · have : ⌊q⌋ < k := Int.floor_lt.mpr h
    have := round_half_even_le_floor_succ q
    omega

theorem round_to_format_nonneg (p emin : ℤ) (q : ℚ) (h : 0 ≤ q) :
    0 ≤ round_to_format p emin q := by
  unfold round_to_format
  have hu : (0 : ℚ) < 2 ^ ulp_exp p emin q := zpow_pos (by norm_num) _
  have : 0 ≤ round_half_even (q / 2 ^ ulp_exp p emin q) :=
    round_half_even_nonneg _ (div_nonneg h hu.le)
  have : (0 : ℚ) ≤ (round_half_even (q / 2 ^ ulp_exp p emin q) : ℚ) := by exact_mod_cast this
  positivity

theorem round_to_format_zero (p emin : ℤ) : round_to_format p emin 0 = 0 := by
  unfold round_to_format
  simp [round_half_even_intCast, round_half_even]

/-- A bound `c` that is a multiple of the unit in the last place of `q` is respected. -/
theorem round_to_format_le (p emin : ℤ) (q : ℚ) (c : ℕ) (h : q ≤ c)
    (hu : ulp_exp p emin q ≤ 0) : round_to_format p emin q ≤ c := by
  unfold round_to_format
  set e := ulp_exp p emin q with he
  have hpos : (0 : ℚ) < 2 ^ e := zpow_pos (by norm_num) _
  obtain ⟨n, hn⟩ : ∃ n : ℕ, e = -(n : ℤ) := ⟨(-e).toNat, by omega⟩
  have hc : (c : ℚ) = ((c * 2 ^ n : ℤ) : ℚ) * 2 ^ e := by
    rw [hn, zpow_neg, zpow_natCast]
    push_cast
    field_simp
  have h1 : q / 2 ^ e ≤ ((c * 2 ^ n : ℤ) : ℚ) := by
    rw [div_le_iff₀ hpos, ← hc]
    exact h
  have h2 := round_half_even_le _ _ h1
  have h3 : (round_half_even (q / 2 ^ e) : ℚ) ≤ ((c * 2 ^ n : ℤ) : ℚ) := by exact_mod_cast h2
  calc (round_half_even (q / 2 ^ e) : ℚ) * 2 ^ e ≤ ((c * 2 ^ n : ℤ) : ℚ) * 2 ^ e :=
        mul_le_mul_of_nonneg_right h3 hpos.le
    _ = c := hc.symm

theorem ulp_exp_nonpos (p emin : ℤ) (q : ℚ) (c : ℕ) (h0 : 0 ≤ q) (h : q ≤ c)
    (hp : (Nat.log 2 c : ℤ) + 1 ≤ p) (hemin : emin + 1 ≤ p) : ulp_exp p emin q ≤ 0 := by
  unfold ulp_exp
  rw [abs_of_nonneg h0]
  have h1 : Int.log 2 q ≤ Int.log 2 (c : ℚ) := by
    rcases eq_or_lt_of_le h0 with h0 | h0
    · rw [← h0]
      simp [Int.log_of_right_le_zero]
    · exact Int.log_mono_right h0 h
  rw [Int.log_natCast] at h1
  have : Int.log 2 q + 1 - p ≤ 0 := by omega
  have : emin + 1 - p ≤ 0 := by omega
  exact max_le ‹_› ‹_›

theorem to_double_bounds (q : ℚ) (c : ℕ) (h0 : 0 ≤ q) (h : q ≤ c) (hc : Nat.log 2 c + 1 ≤ 53) :
    0 ≤ to_double q ∧ to_double q ≤ c :=
  ⟨round_to_format_nonneg _ _ _ h0,
    round_to_format_le _ _ _ _ h (ulp_exp_nonpos _ _ _ _ h0 h (by omega) (by norm_num))⟩

theorem to_float_bounds (q : ℚ) (c : ℕ) (h0 : 0 ≤ q) (h : q ≤ c) (hc : Nat.log 2 c + 1 ≤ 24) :
    0 ≤ to_float q ∧ to_float q ≤ c :=
  ⟨round_to_format_nonneg _ _ _ h0,
    round_to_format_le _ _ _ _ h (ulp_exp_nonpos _ _ _ _ h0 h (by omega) (by norm_num))⟩

theorem log2_255 : Nat.log 2 255 = 7 := by
  simp [Nat.log]

theorem roundf_bounds (x : ℚ) (h0 : 0 ≤ x) (h : x ≤ 255) : 0 ≤ roundf x ∧ roundf x ≤ 255 := by
  unfold roundf
  rw [if_pos h0]
  constructor
  · exact Int.floor_nonneg.mpr (by linarith)
  · have : ⌊x + 1 / 2⌋ < 256 := by
      rw [Int.floor_lt]
      push_cast
      linarith
    omega

theorem lut_round_bounds (v : ℚ) (hlo : -1 / 2 ≤ v) (hhi : v ≤ 1 / 2) :
    0 ≤ lut_round v ∧ lut_round v ≤ 255 := by
  unfold lut_round
  have a := to_double_bounds (v + 1 / 2) 1 (by linarith) (by push_cast; linarith) (by simp)
  have b := to_double_bounds (to_double (v + 1 / 2) * 255) 255
    (mul_nonneg a.1 (by norm_num)) (by push_cast at a ⊢; nlinarith [a.2]) (by rw [log2_255]; norm_num)
  have c := to_float_bounds _ 255 b.1 b.2 (by rw [log2_255]; norm_num)
  exact roundf_bounds _ c.1 (by exact_mod_cast c.2)

theorem to_byte_of_range (z : ℤ) (h0 : 0 ≤ z) (h : z ≤ 255) : (to_byte z : ℤ) = z := by
  unfold to_byte
  rw [Int.toNat_of_nonneg (Int.emod_nonneg _ (by norm_num))]
  omega

theorem int_log_eq (q : ℚ) (L : ℤ) (h1 : (2 : ℚ) ^ L ≤ q) (h2 : q < (2 : ℚ) ^ (L + 1)) :
    Int.log 2 q = L := by
  have hq : 0 < q := lt_of_lt_of_le (zpow_pos (by norm_num) _) h1
  have a : L ≤ Int.log 2 q := (Int.zpow_le_iff_le_log (by norm_num) hq).mp (by exact_mod_cast h1)
  have b : Int.log 2 q < L + 1 := (Int.lt_zpow_iff_log_lt (by norm_num) hq).mp (by exact_mod_cast h2)
  omega

theorem round_to_format_exact (p emin : ℤ) (q : ℚ) (L k : ℤ) (hL : Int.log 2 |q| = L)
    (hk : q = (k : ℚ) * 2 ^ max (L + 1 - p) (emin + 1 - p)) : round_to_format p emin q = q := by
  unfold round_to_format ulp_exp
  rw [hL]
  have hpos : (0 : ℚ) < 2 ^ max (L + 1 - p) (emin + 1 - p) := zpow_pos (by norm_num) _
  have : q / 2 ^ max (L + 1 - p) (emin + 1 - p) = (k : ℚ) := by
    rw [div_eq_iff hpos.ne']
    exact hk
  rw [this, round_half_even_intCast]
  exact hk.symm

theorem lut_round_low : lut_round (-1 / 2) = 0 := by
  unfold lut_round to_float to_double
  have : (-1 / 2 + 1 / 2 : ℚ) = 0 := by norm_num
  rw [this, round_to_format_zero, zero_mul, round_to_format_zero, round_to_format_zero]
  norm_num [roundf]

theorem to_double_sum_high : to_double (1 / 2 - 1 / 2 ^ 25 + 1 / 2) = 1 - 1 / 2 ^ 25 := by
  have e : (1 / 2 - 1 / 2 ^ 25 + 1 / 2 : ℚ) = 1 - 1 / 2 ^ 25 := by norm_num
  rw [e]
  unfold to_double
  have hL : Int.log 2 |(1 - 1 / 2 ^ 25 : ℚ)| = -1 := by
    rw [abs_of_nonneg (by norm_num)]
    exact int_log_eq _ _ (by norm_num) (by norm_num)
  exact round_to_format_exact 53 (-1022) _ (-1) (2 ^ 53 - 2 ^ 28) hL (by norm_num)

theorem to_double_prod_high :
    to_double ((1 - 1 / 2 ^ 25) * 255) = 255 - 255 / 2 ^ 25 := by
  have e : ((1 - 1 / 2 ^ 25) * 255 : ℚ) = 255 - 255 / 2 ^ 25 := by norm_num
  rw [e]
  unfold to_double
  have hL : Int.log 2 |(255 - 255 / 2 ^ 25 : ℚ)| = 7 := by
    rw [abs_of_nonneg (by norm_num)]
    exact int_log_eq _ _ (by norm_num) (by norm_num)
  exact round_to_format_exact 53 (-1022) _ 7 (255 * 2 ^ 45 - 255 * 2 ^ 20) hL (by norm_num)

theorem to_float_prod_high : to_float (255 - 255 / 2 ^ 25) = 255 := by
  unfold to_float round_to_format ulp_exp
  have hL : Int.log 2 |(255 - 255 / 2 ^ 25 : ℚ)| = 7 := by
    rw [abs_of_nonneg (by norm_num)]
    exact int_log_eq _ _ (by norm_num) (by norm_num)
  rw [hL]
  have hm : max ((7 : ℤ) + 1 - 24) (-126 + 1 - 24) = -16 := by norm_num
  rw [hm]
  have hr : round_half_even ((255 - 255 / 2 ^ 25 : ℚ) / 2 ^ (-16 : ℤ)) = 16711680 := by
    unfold round_half_even
    have hf : ⌊((255 - 255 / 2 ^ 25 : ℚ) / 2 ^ (-16 : ℤ))⌋ = 16711679 := by
      rw [Int.floor_eq_iff]
      constructor <;> norm_num
    simp only [hf]
    norm_num
  rw [hr]
  norm_num

theorem lut_round_high : lut_round (1 / 2 - 1 / 2 ^ 25) = 255 := by
  unfold lut_round
  rw [to_double_sum_high, to_double_prod_high, to_float_prod_high]
  unfold roundf
  rw [if_pos (by norm_num)]
  rw [Int.floor_eq_iff]
  constructor <;> norm_num

theorem to_float_high : to_float (1 / 2 - 1 / 2 ^ 25) = 1 / 2 - 1 / 2 ^ 25 := by
  unfold to_float
  have hL : Int.log 2 |(1 / 2 - 1 / 2 ^ 25 : ℚ)| = -2 := by
    rw [abs_of_nonneg (by norm_num)]
    exact int_log_eq _ _ (by norm_num) (by norm_num)
  exact round_to_format_exact 24 (-126) _ (-2) (2 ^ 24 - 1) hL (by norm_num)

theorem float_below_half (w : ℚ) (hw : to_float w = w) (h : w < 1 / 2) :
    w ≤ 1 / 2 - 1 / 2 ^ 25 := by
  by_cases hq : w < 1 / 4
  · have : (1 / 4 : ℚ) ≤ 1 / 2 - 1 / 2 ^ 25 := by norm_num
    linarith
  · push_neg at hq
    have hL : Int.log 2 |w| = -2 := by
      rw [abs_of_nonneg (by linarith)]
      exact int_log_eq _ _ (by norm_num; linarith) (by norm_num; linarith)
    unfold to_float round_to_format ulp_exp at hw
    rw [hL] at hw
    have hm : max ((-2 : ℤ) + 1 - 24) (-126 + 1 - 24) = -25 := by norm_num
    rw [hm] at hw
    set k := round_half_even (w / 2 ^ (-25 : ℤ)) with hk
    have hk2 : (k : ℚ) < 2 ^ 24 := by
      have : (k : ℚ) * 2 ^ (-25 : ℤ) < 1 / 2 := by rw [hw]; exact h
      have e : (2 : ℚ) ^ (-25 : ℤ) = 1 / 2 ^ 25 := by norm_num
      rw [e] at this
      have h25 : (0 : ℚ) < 2 ^ 25 := by norm_num
      rw [mul_one_div, div_lt_iff₀ h25] at this
      linarith
    have hk3 : k ≤ 2 ^ 24 - 1 := by
      have : k < 2 ^ 24 := by exact_mod_cast hk2
      omega
    have hk4 : (k : ℚ) ≤ 2 ^ 24 - 1 := by exact_mod_cast hk3
    rw [← hw]
    have e : (2 : ℚ) ^ (-25 : ℤ) = 1 / 2 ^ 25 := by norm_num
    rw [e]
    have : (k : ℚ) * (1 / 2 ^ 25) ≤ (2 ^ 24 - 1) * (1 / 2 ^ 25) :=
      mul_le_mul_of_nonneg_right hk4 (by norm_num)
    calc (k : ℚ) * (1 / 2 ^ 25) ≤ (2 ^ 24 - 1) * (1 / 2 ^ 25) := this
      _ = 1 / 2 - 1 / 2 ^ 25 := by norm_num

/-- C9: a palette entry `v` with `-0.5 ≤ v < 0.5` is turned into a byte by
`roundf((v + 0.5) * 255.0)`: the rounded value lies in `0 .. 255`, so the store into the byte
does not wrap; `v = -0.5` gives 0; and the largest `float` below `0.5`, which is
`0.5 - 2^-25`, gives 255. -/
theorem lut_entry_range (v : ℚ) (hlo : -1 / 2 ≤ v) (hhi : v < 1 / 2) :
    (0 ≤ lut_round v ∧ lut_round v ≤ 255 ∧ (lut_entry v : ℤ) = lut_round v) ∧
    lut_entry (-1 / 2) = 0 ∧
    (to_float (1 / 2 - 1 / 2 ^ 25) = 1 / 2 - 1 / 2 ^ 25 ∧
     (∀ w : ℚ, to_float w = w → w < 1 / 2 → w ≤ 1 / 2 - 1 / 2 ^ 25) ∧
     lut_entry (1 / 2 - 1 / 2 ^ 25) = 255) := by
  have hb := lut_round_bounds v hlo hhi.le
  refine ⟨⟨hb.1, hb.2, to_byte_of_range _ hb.1 hb.2⟩, ?_, to_float_high, float_below_half, ?_⟩
  · unfold lut_entry
    rw [lut_round_low]
    rfl
  · unfold lut_entry
    rw [lut_round_high]
    rfl

/-- The closed instance of C9: the entry `v = 0`. -/
theorem lut_entry_range_witness :
    0 ≤ lut_round 0 ∧ lut_round 0 ≤ 255 ∧ (lut_entry 0 : ℤ) = lut_round 0 :=
  (lut_entry_range 0 (by norm_num) (by norm_num)).1

/-! ### The channel box and the colour box of `write` -/

/-- C5 (failing input): for the 4-component image with one extra sample, `write` maps
the colour channels to the components 0, 1, 2, but hands `set_opacity_mapping` the indices
`(4, 4)`: the alpha channel is assigned the component index `nc + 0 = 4`, which is not below
`nc = 4`, instead of the remaining index 3. -/
theorem channel_map_rgba :
    (write plain_write_env rgba_image).channels
      = { num_colours := 3, colour_mapping := [(0, 0), (1, 1), (2, 2)],
          opacity_mapping := [(4, 4)] } ∧
    ¬ ∀ p ∈ (write plain_write_env rgba_image).channels.opacity_mapping,
        p.2 < (rgba_image.nc : ℤ) := by
  constructor
  · decide
  · decide

/-- The opacity mappings of `write` in general: extra sample `c` is given the component
index `nc + c`, never one below `nc`. -/
theorem channel_map_opacity (img : SipiImage) (hnc : img.nc + img.es.length < 2 ^ 31) :
    (channel_map img).opacity_mapping
      = (List.range img.es.length).map
          (fun c => (((img.nc + c : Nat) : ℤ), ((img.nc + c : Nat) : ℤ))) := by
  unfold channel_map
  simp only []
  apply List.map_congr_left
  intro c hc
  have hc' : c < img.es.length := List.mem_range.mp hc
  have : to_int (img.nc + c) = ((img.nc + c : Nat) : ℤ) := by
    unfold to_int
    omega
  rw [this]

/-- C6 (counterexample): for the 4-component image with one extra sample and no ICC
profile, `write` does not initialise the colour box with the CMYK colour space. -/
theorem colour_init_rgba_not_cmyk :
    (write plain_write_env rgba_image).colour ≠ some (.space .JP2_CMYK_SPACE) := by
  decide

theorem write_colour (w : WriteEnv) (img : SipiImage) :
    (write w img).colour = colour_init w img := by
  unfold write
  simp only []
  split <;> rfl

/-- C6 (amended): for an image with 4 components of which 1 is an extra sample and with no
ICC profile, `write` initialises the colour box with the sRGB colour space, the colour
count `nc - es.size()` being 3; without ICC profile the CMYK colour space is chosen when
that count is 4. -/
theorem colour_init_without_icc (w : WriteEnv) (img : SipiImage) (hicc : img.icc = none) :
    (img.nc = 4 → img.es.length = 1 →
      (write w img).colour = some (.space .JP2_sRGB_SPACE)) ∧
    (img.nc = img.es.length + 4 → img.nc < 2 ^ 64 →
      (write w img).colour = some (.space .JP2_CMYK_SPACE)) := by
  rw [write_colour]
  constructor
  · intro hnc hes
    simp [colour_init, hicc, hnc, hes, sub_size_t]
  · intro hnc hlt
    have h4 : sub_size_t img.nc img.es.length = 4 := by
      unfold sub_size_t
      omega
    simp [colour_init, hicc, h4]

/-- The closed instance of C6 (amended). -/
theorem colour_init_without_icc_witness :
    (write plain_write_env rgba_image).colour = some (.space .JP2_sRGB_SPACE) :=
  (colour_init_without_icc plain_write_env rgba_image rfl).1 rfl rfl

/-! ### Metadata boxes: write, then read -/

theorem write_boxes (w : WriteEnv) (img : SipiImage) :
    (write w img).boxes = metadata_boxes w img := by
  unfold write
  simp only []
  split <;> rfl

/-- C7 (failing input): an XMP blob with a zero byte, `3C 00 78`, is written by `write` as
the tag followed by `3C` only, with declared size 17, whatever follows the blob in memory,
because `write_xmp_box` measures the blob with `strlen`; the box scan of `read` then
extracts `3C`, not the blob. -/
theorem xmp_box_truncates (w : WriteEnv) :
    (write w { rgba_image with xmp := some [0x3C, 0x00, 0x78] }).boxes
      = [{ target_size := 17, body := xmp_uuid ++ [0x3C] }] ∧
    (scan_boxes accept_all [] blank_image
      (as_read_boxes
        (write w { rgba_image with xmp := some [0x3C, 0x00, 0x78] }).boxes)).xmp
      = some [0x3C] := by
  have h : (write w { rgba_image with xmp := some [0x3C, 0x00, 0x78] }).boxes
      = [{ target_size := 17, body := xmp_uuid ++ [0x3C] }] := by
    rw [write_boxes]
    simp [metadata_boxes, rgba_image, write_xmp_box, strlen, xmp_uuid, List.takeWhile]
  rw [h]
  exact ⟨rfl, by decide⟩

theorem scan_box_tagged (m : MetaCtors) (stack : List Nat) (img : SipiImage)
    (tag b : List Nat) (htag : tag.length = 16) :
    scan_box m stack img { is_uuid := true, content := tag ++ b } =
      if tag = xmp_uuid then (if m.xmp_ok b then { img with xmp := some b } else img)
      else if tag = iptc_uuid then (if m.iptc_ok b then { img with iptc := some b } else img)
      else if tag = exif_uuid then (if m.exif_ok b then { img with exif := some b } else img)
      else img := by
  have hlen : 0 + 16 ≤ ((tag ++ b).take 16).length := by
    simp only [List.length_take, List.length_append]
    omega
  have e : ∀ sig : List Nat, sig.length = 16 →
      memcmp_eq sig (posix_read (tag ++ b) 16 stack).2 0 = decide (tag = sig) := by
    intro sig hsig
    rw [memcmp_eq_posix_read sig (tag ++ b) stack 16 0 (by rw [hsig]; exact hlen)]
    rw [hsig, List.drop_zero, ← htag, List.take_left']
    rfl
  have hrest : (tag ++ b).drop 16 = b := by
    rw [← htag, List.drop_left']
    rfl
  unfold scan_box
  simp only [if_true, hrest, e xmp_uuid rfl, e iptc_uuid rfl, e exif_uuid rfl,
    decide_eq_true_eq]

theorem strlen_terminated (b rest : List Nat) (hz : ∀ x ∈ b, x ≠ 0) :
    strlen (b ++ 0 :: rest) = b.length := by
  unfold strlen
  induction b with
  | nil => simp
  | cons x xs ih =>
    have hx : x ≠ 0 := hz x (List.mem_cons_self _ _)
    have hxs : ∀ y ∈ xs, y ≠ 0 := fun y hy => hz y (List.mem_cons_of_mem _ hy)
    have h := ih hxs
    have hd : decide (x ≠ 0) = true := decide_eq_true hx
    rw [List.cons_append, List.takeWhile_cons, hd]
    simp only [if_true, List.length_cons]
    rw [h]

/-- The part of the metadata claim that holds: an IPTC or EXIF blob, and an XMP blob without
zero byte that is followed in memory by a zero byte, is written as its tag followed by
exactly the blob, with declared size `len + 16`, and the box scan of `read` extracts the
blob again. -/
theorem metadata_round_trip (m : MetaCtors) (stack : List Nat) (img : SipiImage)
    (b : List Nat) :
    (write_iptc_box b b.length = { target_size := b.length + 16, body := iptc_uuid ++ b } ∧
      (m.iptc_ok b = true →
        (scan_box m stack img ⟨true, (write_iptc_box b b.length).body⟩).iptc = some b)) ∧
    (write_exif_box b b.length = { target_size := b.length + 16, body := exif_uuid ++ b } ∧
      (m.exif_ok b = true →
        (scan_box m stack img ⟨true, (write_exif_box b b.length).body⟩).exif = some b)) ∧
    ((∀ x ∈ b, x ≠ 0) → ∀ tail : List Nat,
      write_xmp_box (b ++ 0 :: tail)
        = { target_size := b.length + 16, body := xmp_uuid ++ b } ∧
      (m.xmp_ok b = true →
        (scan_box m stack img ⟨true, (write_xmp_box (b ++ 0 :: tail)).body⟩).xmp
          = some b)) := by
  have hi : write_iptc_box b b.length
      = { target_size := b.length + 16, body := iptc_uuid ++ b } := by
    simp [write_iptc_box, iptc_uuid]
  have he : write_exif_box b b.length
      = { target_size := b.length + 16, body := exif_uuid ++ b } := by
    simp [write_exif_box, exif_uuid]
  refine ⟨⟨hi, ?_⟩, ⟨he, ?_⟩, ?_⟩
  · intro hok
    rw [hi]
    simp only []
    rw [scan_box_tagged m stack img iptc_uuid b rfl]
    rw [if_neg (by decide), if_pos rfl, if_pos hok]
  · intro hok
    rw [he]
    simp only []
    rw [scan_box_tagged m stack img exif_uuid b rfl]
    rw [if_neg (by decide), if_neg (by decide), if_pos rfl, if_pos hok]
  · intro hz tail
    have hx : write_xmp_box (b ++ 0 :: tail)
        = { target_size := b.length + 16, body := xmp_uuid ++ b } := by
      have hs : strlen (b ++ 0 :: tail) = b.length := strlen_terminated b tail hz
      simp [write_xmp_box, hs, xmp_uuid]
    refine ⟨hx, ?_⟩
    intro hok
    rw [hx]
    simp only []
    rw [scan_box_tagged m stack img xmp_uuid b rfl]
    rw [if_pos rfl, if_pos hok]

/-! ### Palette expansion -/

theorem lut_entry_low : lut_entry (-1 / 2) = 0 := by
  unfold lut_entry
  rw [lut_round_low]
  rfl

theorem lut_entry_high : lut_entry (1 / 2 - 1 / 2 ^ 25) = 255 := by
  unfold lut_entry
  rw [lut_round_high]
  rfl

theorem read_luts_two_entry :
    read_luts two_entry_palette
      = some { rlut := [0, 255], glut := [0, 255], blut := [0, 255] } := by
  have h : (List.range 2) = [0, 1] := rfl
  simp only [read_luts, two_entry_palette, if_true, h, List.map_cons, List.map_nil,
    if_true, show ¬ ((1 : Nat) = 0) by decide, if_false, lut_entry_low, lut_entry_high]

/-- C8 (failing input): a file with a palette of three lookup tables whose layer reports 4
colour channels is read successfully, the two pixels are expanded to triplets at the
offsets 0 and 3 of the new buffer, but the component count of the image is set to
`numcol = 4`, not to 3. -/
theorem palette_numcol_four :
    (read (jp2_env [] two_entry_palette ⟨4, none⟩) blank_image none none false).ret
      = some (.ok true) ∧
    (read (jp2_env [] two_entry_palette ⟨4, none⟩) blank_image none none false).img.nc = 4 ∧
    (read (jp2_env [] two_entry_palette ⟨4, none⟩) blank_image none none false).img.pixels
      = [255, 255, 255, 255, 255, 255, 0, 0] := by
  rw [read_eq_decode (jp2_env [] two_entry_palette ⟨4, none⟩) blank_image none none false
    full_image (by decide) rfl rfl]
  simp only [decode, resolve_layer, layer_branch, jp2_env, read_luts_two_entry]
  refine ⟨?_, ?_, ?_⟩
  · rfl
  · rfl
  · rfl

/-! ### Release of the engine resources on the throwing paths -/

/-- C10 (failing inputs): three runs in which the exception leaves the method after
`codestream.create` while neither `codestream.destroy` nor the close of the input (or of
the output) has been called: `read` of a file whose colour descriptor reports the code 255,
`read` of a raw codestream of two components, and `write` of an image of 12 bits per
sample. -/
theorem throw_without_release :
    ((read (jp2_env [] no_palette ⟨3, some ⟨255, []⟩⟩) blank_image none none false).ret
        = some (.error (.image_error (.unsupported_icc_profile 255))) ∧
      Call.codestream_create ∈
        (read (jp2_env [] no_palette ⟨3, some ⟨255, []⟩⟩) blank_image none none false).trace ∧
      Call.codestream_destroy ∉
        (read (jp2_env [] no_palette ⟨3, some ⟨255, []⟩⟩) blank_image none none false).trace ∧
      Call.input_close ∉
        (read (jp2_env [] no_palette ⟨3, some ⟨255, []⟩⟩) blank_image none none false).trace) ∧
    ((read (raw_env 8 2) blank_image none none false).ret
        = some (.error (.image_error .no_photometric)) ∧
      Call.codestream_create ∈ (read (raw_env 8 2) blank_image none none false).trace ∧
      Call.codestream_destroy ∉ (read (raw_env 8 2) blank_image none none false).trace ∧
      Call.input_close ∉ (read (raw_env 8 2) blank_image none none false).trace) ∧
    ((write plain_write_env { rgba_image with bps := 12 }).ret
        = .error (.image_error .unsupported_bps) ∧
      Call.codestream_create ∈ (write plain_write_env { rgba_image with bps := 12 }).trace ∧
      Call.codestream_destroy ∉ (write plain_write_env { rgba_image with bps := 12 }).trace ∧
      Call.output_close ∉ (write plain_write_env { rgba_image with bps := 12 }).trace) := by
  refine ⟨⟨rfl, ?_, ?_, ?_⟩, ⟨rfl, ?_, ?_, ?_⟩, ⟨rfl, ?_, ?_, ?_⟩⟩ <;> decide

/-- The throwing paths of `read` that do release the engine resources: when `crop_coords`
throws, and when the bit depth is not supported, `codestream.destroy` and the close of the
input have been called before the exception leaves `read`. -/
theorem release_on_region_and_bps (env : Env) (img : SipiImage)
    (region : Option SipiRegion) (size : Option SipiSize)
    (hj : is_jpx env.file env.stack = true) (hc : env.create_fails = false) :
    (∀ e, restrictions env.codestream region size = .error e →
      ∀ force_bps_8, (read env img region size force_bps_8).ret = some (.error e) ∧
        Call.codestream_destroy ∈ (read env img region size force_bps_8).trace ∧
        Call.input_close ∈ (read env img region size force_bps_8).trace) ∧
    ((read env img region size false).ret = some (.error (.image_error .unsupported_bps)) →
      Call.codestream_destroy ∈ (read env img region size false).trace ∧
      Call.input_close ∈ (read env img region size false).trace) := by
  constructor
  · intro e he force_bps_8
    simp [read, hj, hc, he]
  · intro h
    cases hg : restrictions env.codestream region size with
    | error e =>
      simp [read, hj, hc, hg]
    | ok g =>
      rw [read_eq_decode env img region size false g hj hc hg] at h ⊢
      cases hres : resolve_layer env.sp env.jpx (set_geometry env.codestream g
          (read_comment env.codestream (open_source env img).1)) with
      | error e =>
        obtain ⟨e1, e2⟩ := e
        simp only [decode, hres] at h
        simp only [Option.some.injEq, Except.error.injEq, Exn.image_error.injEq] at h
        subst h
        exfalso
        unfold resolve_layer at hres
        simp only [] at hres
        split at hres
        · split at hres
          · simp only [layer_branch] at hres
            split at hres
            · split at hres
              · cases hres
              · rename_i c e3 hsw
                simp only [Except.error.injEq, Prod.mk.injEq] at hres
                have h1 := hres.1
                subst h1
                simp only [colour_switch] at hsw
                split_ifs at hsw
                cases hsw
            · cases hres
          · cases hres
        · cases hres
      | ok r =>
        cases hinf : infer_photo r.img.photo r.numcol with
        | error e =>
          simp only [decode, hres, hinf] at h
          simp only [Option.some.injEq, Except.error.injEq, Exn.image_error.injEq] at h
          subst h
          exfalso
          unfold infer_photo at hinf
          split_ifs at hinf
          cases hinf
        | ok photo =>
          cases hpull : (pull_pixels env.codestream { r.img with photo := photo } false).1 with
          | error e =>
            have htr : (pull_pixels env.codestream { r.img with photo := photo } false).2 =
                [.decompressor_start, .decompressor_finish, .codestream_destroy,
                 .input_close, .jpx_close] := by
              unfold pull_pixels at hpull ⊢
              simp only [Bool.false_eq_true, if_false] at hpull ⊢
              split_ifs at hpull ⊢
              rfl
            simp only [decode, hres, hinf, hpull, htr]
            simp
          | ok img5 =>
            exfalso
            simp only [decode, hres, hinf, hpull] at h
            split at h <;> simp at h

/-! ### The loops of the palette expansion -/

theorem store_eq_some (buf t : List Nat) (i v : Nat) :
    store buf i v = some t ↔ i < buf.length ∧ t = buf.set i v := by
  unfold store
  split
  · rename_i h
    simp only [Option.some.injEq, h, true_and]
    exact eq_comm
  · rename_i h
    simp [h]

theorem expand_pixel_step (l : Luts) (pixels tmp buf buf' : List Nat) (nx y x : Nat)
    (hinv : expanded_upto l pixels tmp buf (y * nx + x))
    (h : expand_pixel l pixels nx y buf x = some buf') :
    expanded_upto l pixels tmp buf' (y * nx + x + 1) := by
  simp only [expand_pixel, bind, Option.bind_eq_some, store_eq_some] at h
  obtain ⟨i, hi, r, hr, t0, ⟨h0, ht0⟩, g, hg, t1, ⟨h1, ht1⟩, b, hb, h2, ht2⟩ := h
  obtain ⟨hlen, hdone, hrest⟩ := hinv
  subst ht0 ht1 ht2
  simp only [List.length_set] at h1 h2
  simp only [Nat.add_zero] at h0
  refine ⟨by simp only [List.length_set]; exact hlen, ?_, ?_⟩
  · intro k hk
    rcases Nat.lt_succ_iff_lt_or_eq.mp hk with hlt | heq
    · obtain ⟨i', r', g', b', hp, hr', hg', hb', e0, e1, e2⟩ := hdone k hlt
      refine ⟨i', r', g', b', hp, hr', hg', hb', ?_, ?_, ?_⟩
      · rw [List.getElem?_set_ne (by omega), List.getElem?_set_ne (by omega),
          List.getElem?_set_ne (by omega)]
        exact e0
      · rw [List.getElem?_set_ne (by omega), List.getElem?_set_ne (by omega),
          List.getElem?_set_ne (by omega)]
        exact e1
      · rw [List.getElem?_set_ne (by omega), List.getElem?_set_ne (by omega),
          List.getElem?_set_ne (by omega)]
        exact e2
    · subst heq
      refine ⟨i, r, g, b, hi, hr, hg, hb, ?_, ?_, ?_⟩
      · rw [List.getElem?_set_ne (by omega), List.getElem?_set_ne (by omega)]
        simp only [Nat.add_zero]
        exact List.getElem?_set_self h0
      · rw [List.getElem?_set_ne (by omega)]
        exact List.getElem?_set_self (by simp only [List.length_set]; exact h1)
      · exact List.getElem?_set_self (by simp only [List.length_set]; exact h2)
  · intro j hj
    rw [List.getElem?_set_ne (by omega), List.getElem?_set_ne (by omega),
      List.getElem?_set_ne (by omega)]
    exact hrest j (by omega)

theorem expand_row (l : Luts) (pixels tmp : List Nat) (nx y : Nat) :
    ∀ n buf buf', expanded_upto l pixels tmp buf (y * nx) →
      (List.range n).foldlM (expand_pixel l pixels nx y) buf = some buf' →
      expanded_upto l pixels tmp buf' (y * nx + n) := by
  intro n
  induction n with
  | zero =>
    intro buf buf' hinv h
    simp only [List.range_zero, List.foldlM_nil, pure, Option.some.injEq] at h
    subst h
    exact hinv
  | succ n ih =>
    intro buf buf' hinv h
    rw [List.range_succ, List.foldlM_append] at h
    simp only [bind, Option.bind_eq_some, List.foldlM_cons, List.foldlM_nil, pure] at h
    obtain ⟨mid, hmid, last, hlast, hb⟩ := h
    simp only [Option.some.injEq] at hb
    subst hb
    exact expand_pixel_step l pixels tmp mid last nx y n (ih buf mid hinv hmid) hlast

theorem expand_rows (l : Luts) (pixels tmp : List Nat) (nx : Nat) :
    ∀ m buf', (List.range m).foldlM
        (fun buf y => (List.range nx).foldlM (expand_pixel l pixels nx y) buf) tmp = some buf' →
      expanded_upto l pixels tmp buf' (m * nx) := by
  intro m
  induction m with
  | zero =>
    intro buf' h
    simp only [List.range_zero, List.foldlM_nil, pure, Option.some.injEq] at h
    subst h
    refine ⟨rfl, ?_, fun j _ => rfl⟩
    intro k hk
    omega
  | succ m ih =>
    intro buf' h
    rw [List.range_succ, List.foldlM_append] at h
    simp only [bind, Option.bind_eq_some, List.foldlM_cons, List.foldlM_nil, pure] at h
    obtain ⟨mid, hmid, last, hlast, hb⟩ := h
    simp only [Option.some.injEq] at hb
    subst hb
    have := expand_row l pixels tmp nx m nx mid last (ih mid hmid) hlast
    rw [Nat.succ_mul]
    exact this

/-- The part of the palette claim that holds: when the expansion runs through (no access
leaves its array), the new pixel buffer has `nx * ny * numcol` bytes and holds, for every
pixel position `(x, y)` with index value `i = old_pixels[y*nx + x]`, the triplet
`(rlut[i], glut[i], blut[i])` at offset `3 * (y*nx + x)`; the component count becomes
`numcol`. -/
theorem expand_palette_triplets (heap : Nat → Nat) (img img' : SipiImage) (numcol : ℤ)
    (l : Luts) (h : expand_palette heap img numcol l = some img') :
    img'.nc = to_size_t numcol ∧
    img'.pixels.length = (img.nx * img.ny * to_size_t numcol) % 2 ^ 64 ∧
    ∀ x y, x < img.nx → y < img.ny →
      ∃ i r g b, img.pixels[y * img.nx + x]? = some i ∧
        l.rlut[i]? = some r ∧ l.glut[i]? = some g ∧ l.blut[i]? = some b ∧
        img'.pixels[3 * (y * img.nx + x)]? = some r ∧
        img'.pixels[3 * (y * img.nx + x) + 1]? = some g ∧
        img'.pixels[3 * (y * img.nx + x) + 2]? = some b := by
  unfold expand_palette at h
  simp only [] at h
  split at h
  · rename_i buf hbuf
    simp only [Option.some.injEq] at h
    subst h
    have hinv := expand_rows l img.pixels _ img.nx img.ny buf hbuf
    refine ⟨rfl, ?_, ?_⟩
    · simp only []
      rw [hinv.1]
      simp only [List.length_map, List.length_range]
    · intro x y hx hy
      have hk : y * img.nx + x < img.ny * img.nx := by
        calc y * img.nx + x < y * img.nx + img.nx := by omega
          _ = (y + 1) * img.nx := by rw [Nat.succ_mul]
          _ ≤ img.ny * img.nx := Nat.mul_le_mul_right _ hy
      exact hinv.2.1 _ hk
  · cases h

theorem expand_pixel_some (l : Luts) (pixels buf : List Nat) (nx y x : Nat)
    (hp : y * nx + x < pixels.length)
    (hi : ∀ i, pixels[y * nx + x]? = some i →
      i < l.rlut.length ∧ i < l.glut.length ∧ i < l.blut.length)
    (hb : 3 * (y * nx + x) + 2 < buf.length) :
    ∃ buf', expand_pixel l pixels nx y buf x = some buf' ∧ buf'.length = buf.length := by
  have hpix : pixels[y * nx + x]? = some pixels[y * nx + x] := List.getElem?_eq_getElem hp
  obtain ⟨hr, hg, hbl⟩ := hi _ hpix
  refine ⟨((buf.set (3 * (y * nx + x) + 0) l.rlut[pixels[y * nx + x]]).set
      (3 * (y * nx + x) + 1) l.glut[pixels[y * nx + x]]).set
      (3 * (y * nx + x) + 2) l.blut[pixels[y * nx + x]], ?_, by simp only [List.length_set]⟩
  simp only [expand_pixel, bind, Option.bind_eq_some, store_eq_some]
  refine ⟨_, hpix, _, List.getElem?_eq_getElem hr, _, ⟨by omega, rfl⟩, _,
    List.getElem?_eq_getElem hg, _, ⟨by simp only [List.length_set]; omega, rfl⟩, _,
    List.getElem?_eq_getElem hbl, by simp only [List.length_set]; omega, rfl⟩

theorem expand_row_some (l : Luts) (pixels : List Nat) (nx y : Nat)
    (hp : (y + 1) * nx ≤ pixels.length)
    (hi : ∀ (k i : Nat), pixels[k]? = some i →
      i < l.rlut.length ∧ i < l.glut.length ∧ i < l.blut.length) :
    ∀ n buf, n ≤ nx → 3 * ((y + 1) * nx) ≤ buf.length →
      ∃ buf', (List.range n).foldlM (expand_pixel l pixels nx y) buf = some buf' ∧
        buf'.length = buf.length := by
  intro n
  induction n with
  | zero =>
    intro buf _ _
    exact ⟨buf, rfl, rfl⟩
  | succ n ih =>
    intro buf hn hb
    obtain ⟨mid, hmid, hlen⟩ := ih buf (by omega) hb
    have hlt : y * nx + n < (y + 1) * nx := by rw [Nat.succ_mul]; omega
    obtain ⟨last, hlast, hlen'⟩ := expand_pixel_some l pixels mid nx y n (by omega)
      (hi _) (by omega)
    refine ⟨last, ?_, by omega⟩
    rw [List.range_succ, List.foldlM_append]
    simp only [bind, Option.bind_eq_some, List.foldlM_cons, List.foldlM_nil, pure]
    exact ⟨mid, hmid, last, hlast, rfl⟩

theorem expand_rows_some (l : Luts) (pixels : List Nat) (nx ny : Nat)
    (hp : ny * nx ≤ pixels.length)
    (hi : ∀ (k i : Nat), pixels[k]? = some i →
      i < l.rlut.length ∧ i < l.glut.length ∧ i < l.blut.length) :
    ∀ m buf, m ≤ ny → 3 * (ny * nx) ≤ buf.length →
      ∃ buf', (List.range m).foldlM
          (fun buf y => (List.range nx).foldlM (expand_pixel l pixels nx y) buf) buf
            = some buf' ∧ buf'.length = buf.length := by
  intro m
  induction m with
  | zero =>
    intro buf _ _
    exact ⟨buf, rfl, rfl⟩
  | succ m ih =>
    intro buf hm hb
    obtain ⟨mid, hmid, hlen⟩ := ih buf (by omega) hb
    have hle : (m + 1) * nx ≤ ny * nx := Nat.mul_le_mul_right _ hm
    obtain ⟨last, hlast, hlen'⟩ := expand_row_some l pixels nx m (by omega) hi nx mid
      (le_refl _) (by omega)
    refine ⟨last, ?_, by omega⟩
    rw [List.range_succ, List.foldlM_append]
    simp only [bind, Option.bind_eq_some, List.foldlM_cons, List.foldlM_nil, pure]
    exact ⟨mid, hmid, last, hlast, rfl⟩

/-- The palette expansion does run through when the old buffer holds a sample for every
pixel, every sample is below the number of palette entries, and the new buffer, of
`nx * ny * numcol` bytes, has room for three bytes per pixel. -/
theorem expand_palette_succeeds (heap : Nat → Nat) (img : SipiImage) (numcol : ℤ) (l : Luts)
    (hp : img.ny * img.nx ≤ img.pixels.length)
    (hi : ∀ (k i : Nat), img.pixels[k]? = some i →
      i < l.rlut.length ∧ i < l.glut.length ∧ i < l.blut.length)
    (hroom : 3 * (img.ny * img.nx) ≤ (img.nx * img.ny * to_size_t numcol) % 2 ^ 64) :
    ∃ img', expand_palette heap img numcol l = some img' := by
  obtain ⟨buf, hbuf, -⟩ := expand_rows_some l img.pixels img.nx img.ny hp hi img.ny
    ((List.range ((img.nx * img.ny * to_size_t numcol) % 2 ^ 64)).map heap) (le_refl _)
    (by simp only [List.length_map, List.length_range]; exact hroom)
  refine ⟨{ img with pixels := buf, nc := to_size_t numcol }, ?_⟩
  unfold expand_palette expand_loops
  simp only [hbuf]

/-! ### Engine exceptions -/

theorem read_engine_failure (env : Env) (img : SipiImage) (region : Option SipiRegion)
    (size : Option SipiSize) (force_bps_8 : Bool) (hj : is_jpx env.file env.stack = true)
    (hc : env.create_fails = true) :
    (read env img region size force_bps_8).ret = some (.error .kdu_exception) := by
  simp [read, hj, hc]

theorem getDim_engine_failure (env : Env) (width height : Nat)
    (hj : is_jpx env.file env.stack = true) (hc : env.create_fails = true) :
    (getDim env width height).ret = .error .kdu_exception := by
  simp [getDim, hj, hc]

theorem write_engine_failure (w : WriteEnv) (img : SipiImage) (hp : w.push_fails = true)
    (hb : img.bps = 8 ∨ img.bps = 16) :
    (write w img).ret = .error (.image_error .problem_writing) := by
  rcases hb with hb | hb <;> simp [write, hp, hb]

/-- C11 (failing input): when the engine reports an error while `codestream.create` parses
the header of a raw codestream, `read` and `getDim` let the `kdu_exception` that
`KduSipiError::flush` throws pass to the caller: neither method has a `try` block. `write`
does what the claim says: its `catch (kdu_exception)` turns the engine error into a
`SipiImageError`. -/
theorem engine_exception_escapes :
    (read engine_failing_env blank_image none none false).ret
      = some (.error .kdu_exception) ∧
    (getDim engine_failing_env 0 0).ret = .error .kdu_exception ∧
    (write push_failing_env rgba_image).ret = .error (.image_error .problem_writing) := by
  refine ⟨rfl, rfl, rfl⟩

/-! ### Restrictions and the post-decode resample -/

theorem open_source_trace (env : Env) (img : SipiImage) :
    ∀ c ∈ (open_source env img).2,
      c = .src_open ∨ c = .jpx_open ∨ c = .src_close ∨ c = .file_open ∨ c = .box_scan ∨
      c = .open_stream := by
  intro c hc
  unfold open_source at hc
  cases hj : env.jpx with
  | none =>
    rw [hj] at hc
    simp only [List.mem_cons, List.mem_nil_iff, or_false] at hc
    rcases hc with h | h | h | h <;> simp [h]
  | some j =>
    rw [hj] at hc
    simp only [List.mem_cons, List.mem_nil_iff, or_false] at hc
    rcases hc with h | h | h | h <;> simp [h]

theorem pull_pixels_trace (cs : kdu_codestream) (img : SipiImage) (force_bps_8 : Bool) :
    ∀ c ∈ (pull_pixels cs img force_bps_8).2,
      c = .decompressor_start ∨ c = .pull_stripe 1 ∨ c = .pull_stripe 2 ∨
      c = .decompressor_finish ∨ c = .codestream_destroy ∨ c = .input_close ∨
      c = .jpx_close := by
  intro c hc
  unfold pull_pixels at hc
  simp only [] at hc
  split_ifs at hc <;>
    (simp only [List.mem_cons, List.mem_nil_iff, or_false] at hc
     first
       | (rcases hc with h | h | h | h | h | h <;> simp [h])
       | (rcases hc with h | h | h | h | h <;> simp [h]))

theorem post_process_trace (env : Env) (size : Option SipiSize) (g : Restrictions)
    (img : SipiImage) :
    (post_process env size g img).2 =
      (if img.photo = .YCBCR then [Call.convertYCC2RGB] else []) ++
      (if (size.isSome && !g.redonly) = true then [Call.scale g.nnx g.nny] else []) := by
  unfold post_process
  by_cases hy : img.photo = .YCBCR <;> by_cases hs : (size.isSome && !g.redonly) = true <;>
    simp [hy, hs]

/-- The calls of a run of `decode`: the calls made before, `apply_input_restrictions`, then
nothing more (a throw of the resolution), or the calls of the stripe pull, followed on
success by those of the post-processing of the expanded image. -/
theorem decode_trace (env : Env) (size : Option SipiSize) (force_bps_8 : Bool)
    (g : Restrictions) (img1 : SipiImage) (tr1 : List Call) :
    ∃ mid post, (decode env size force_bps_8 g img1 tr1).trace =
        tr1 ++ [Call.apply_input_restrictions g.reduce (if g.do_roi then some g.roi else none)]
          ++ mid ++ post ∧
      (∀ c ∈ mid, c = .decompressor_start ∨ c = .pull_stripe 1 ∨ c = .pull_stripe 2 ∨
        c = .decompressor_finish ∨ c = .codestream_destroy ∨ c = .input_close ∨
        c = .jpx_close) ∧
      (((decode env size force_bps_8 g img1 tr1).ret ≠ some (.ok true) ∧ post = []) ∨
       ((decode env size force_bps_8 g img1 tr1).ret = some (.ok true) ∧
        ∃ img6, post = (post_process env size g img6).2 ∧
          (decode env size force_bps_8 g img1 tr1).img = (post_process env size g img6).1)) := by
  cases hres : resolve_layer env.sp env.jpx (set_geometry env.codestream g img1) with
  | error e =>
    refine ⟨[], [], ?_, by simp, Or.inl ⟨?_, rfl⟩⟩ <;> simp [decode, hres]
  | ok r =>
    cases hinf : infer_photo r.img.photo r.numcol with
    | error e =>
      refine ⟨[], [], ?_, by simp, Or.inl ⟨?_, rfl⟩⟩ <;> simp [decode, hres, hinf]
    | ok photo =>
      cases hpull : (pull_pixels env.codestream { r.img with photo := photo } force_bps_8).1 with
      | error e =>
        refine ⟨(pull_pixels env.codestream { r.img with photo := photo } force_bps_8).2, [],
          ?_, pull_pixels_trace _ _ _, Or.inl ⟨?_, rfl⟩⟩ <;>
          simp [decode, hres, hinf, hpull]
      | ok img5 =>
        cases hexp : (match r.luts with
            | some l => expand_palette env.heap img5 r.numcol l
            | none => some img5) with
        | none =>
          refine ⟨(pull_pixels env.codestream { r.img with photo := photo } force_bps_8).2, [],
            ?_, pull_pixels_trace _ _ _, Or.inl ⟨?_, rfl⟩⟩ <;>
            simp only [decode, hres, hinf, hpull, hexp] <;> simp
        | some img6 =>
          refine ⟨(pull_pixels env.codestream { r.img with photo := photo } force_bps_8).2,
            (post_process env size g img6).2, ?_, pull_pixels_trace _ _ _,
            Or.inr ⟨?_, img6, rfl, ?_⟩⟩ <;>
            simp only [decode, hres, hinf, hpull, hexp]

theorem restrictions_ok (cs : kdu_codestream) (region : Option SipiRegion)
    (size : Option SipiSize) (g : Restrictions) (h : restrictions cs region size = .ok g) :
    region_of_interest cs region = .ok (g.do_roi, g.roi) ∧
    g.nnx = (scaling cs size g.do_roi g.roi).1 ∧
    g.nny = (scaling cs size g.do_roi g.roi).2.1 ∧
    g.reduce = (scaling cs size g.do_roi g.roi).2.2.1 ∧
    g.redonly = (scaling cs size g.do_roi g.roi).2.2.2 := by
  unfold restrictions at h
  cases hr : region_of_interest cs region with
  | error e =>
    rw [hr] at h
    cases h
  | ok v =>
    obtain ⟨d, roi⟩ := v
    rw [hr] at h
    simp only [Except.ok.injEq] at h
    subst h
    exact ⟨rfl, rfl, rfl, rfl, rfl⟩

theorem scaling_full (cs : kdu_codestream) (size : Option SipiSize) (do_roi : Bool)
    (roi : kdu_dims) (h : size = none ∨ ∃ s, size = some s ∧ s.is_full = true) :
    scaling cs size do_roi roi = (0, 0, 0, true) := by
  rcases h with h | ⟨s, h, hs⟩
  · subst h
    simp [scaling]
  · subst h
    simp [scaling, hs]

theorem region_full (cs : kdu_codestream) (region : Option SipiRegion)
    (h : region = none ∨ ∃ r, region = some r ∧ r.is_full = true) :
    region_of_interest cs region = .ok (false, ⟨0, 0, 0, 0⟩) := by
  rcases h with h | ⟨r, h, hr⟩
  · subst h
    rfl
  · subst h
    simp [region_of_interest, hr]

theorem restrictions_full (cs : kdu_codestream) (region : Option SipiRegion)
    (size : Option SipiSize)
    (hr : region = none ∨ ∃ r, region = some r ∧ r.is_full = true)
    (hs : size = none ∨ ∃ s, size = some s ∧ s.is_full = true) :
    restrictions cs region size = .ok full_image := by
  unfold restrictions
  rw [region_full cs region hr]
  simp only [scaling_full cs size false ⟨0, 0, 0, 0⟩ hs]
  rfl

theorem read_trace_cases (env : Env) (img : SipiImage) (region : Option SipiRegion)
    (size : Option SipiSize) (force_bps_8 : Bool) :
    ((read env img region size force_bps_8).ret ≠ some (.ok true) ∧
      ∀ c ∈ (read env img region size force_bps_8).trace,
        (∃ red roi, c = .apply_input_restrictions red roi ∧
          ∃ g, restrictions env.codestream region size = .ok g ∧ red = g.reduce ∧
            roi = (if g.do_roi then some g.roi else none)) ∨
        ((∀ red roi, c ≠ .apply_input_restrictions red roi) ∧ ∀ a b, c ≠ .scale a b)) ∨
    ((read env img region size force_bps_8).ret = some (.ok true) ∧
      ∃ g pre mid img6, restrictions env.codestream region size = .ok g ∧
        (read env img region size force_bps_8).trace =
          pre ++ [Call.apply_input_restrictions g.reduce
            (if g.do_roi then some g.roi else none)] ++ mid ++ (post_process env size g img6).2 ∧
        (read env img region size force_bps_8).img = (post_process env size g img6).1 ∧
        (∀ c ∈ pre ++ mid,
          (∀ red roi, c ≠ .apply_input_restrictions red roi) ∧ ∀ a b, c ≠ .scale a b)) := by
  have hopen : ∀ c ∈ (open_source env img).2 ++ [Call.codestream_create],
      (∀ red roi, c ≠ .apply_input_restrictions red roi) ∧ ∀ a b, c ≠ .scale a b := by
    intro c hc
    rw [List.mem_append] at hc
    rcases hc with hc | hc
    · rcases open_source_trace env img c hc with h | h | h | h | h | h <;> simp [h]
    · simp only [List.mem_singleton] at hc
      simp [hc]
  have hmid : ∀ c : Call, (c = .decompressor_start ∨ c = .pull_stripe 1 ∨ c = .pull_stripe 2 ∨
        c = .decompressor_finish ∨ c = .codestream_destroy ∨ c = .input_close ∨
        c = .jpx_close) →
      (∀ red roi, c ≠ .apply_input_restrictions red roi) ∧ ∀ a b, c ≠ .scale a b := by
    intro c hc
    rcases hc with h | h | h | h | h | h | h <;> simp [h]
  cases hj : is_jpx env.file env.stack with
  | false =>
    left
    simp [read, hj]
  | true =>
    cases hc : env.create_fails with
    | true =>
      left
      refine ⟨by simp [read, hj, hc], ?_⟩
      intro c hmem
      have : (read env img region size force_bps_8).trace
          = (open_source env img).2 ++ [Call.codestream_create] := by
        simp [read, hj, hc]
      rw [this] at hmem
      exact Or.inr (hopen c hmem)
    | false =>
      cases hg : restrictions env.codestream region size with
      | error e =>
        left
        refine ⟨by simp [read, hj, hc, hg], ?_⟩
        intro c hmem
        have : (read env img region size force_bps_8).trace
            = (open_source env img).2 ++ [Call.codestream_create] ++
              [.codestream_destroy, .input_close, .jpx_close] := by
          simp [read, hj, hc, hg]
        rw [this, List.mem_append] at hmem
        rcases hmem with hmem | hmem
        · exact Or.inr (hopen c hmem)
        · simp only [List.mem_cons, List.mem_nil_iff, or_false] at hmem
          rcases hmem with h | h | h <;> simp [h]
      | ok g =>
        rw [read_eq_decode env img region size force_bps_8 g hj hc hg]
        obtain ⟨mid, post, htr, hm, hpost⟩ := decode_trace env size force_bps_8 g
          (read_comment env.codestream (open_source env img).1)
          ((open_source env img).2 ++ [Call.codestream_create])
        rcases hpost with ⟨hne, hp⟩ | ⟨hok, img6, hp, himg⟩
        · left
          refine ⟨hne, ?_⟩
          intro c hmem
          rw [htr, hp, List.append_nil, List.mem_append, List.mem_append] at hmem
          rcases hmem with (hmem | hmem) | hmem
          · exact Or.inr (hopen c hmem)
          · simp only [List.mem_singleton] at hmem
            exact Or.inl ⟨_, _, hmem, g, rfl, rfl, rfl⟩
          · exact Or.inr (hmid c (hm c hmem))
        · right
          refine ⟨hok, g, (open_source env img).2 ++ [Call.codestream_create], mid, img6, rfl,
            ?_, himg, ?_⟩
          · rw [htr, hp]
          · intro c hmem
            rw [List.mem_append] at hmem
            rcases hmem with hmem | hmem
            · exact hopen c hmem
            · exact hmid c (hm c hmem)

theorem post_process_geometry (env : Env) (size : Option SipiSize) (g : Restrictions)
    (img : SipiImage) (h : (size.isSome && !g.redonly) = false) :
    (post_process env size g img).1.nx = img.nx ∧ (post_process env size g img).1.ny = img.ny := by
  unfold post_process
  by_cases hy : img.photo = .YCBCR <;> simp [hy, h]

theorem decode_geometry (env : Env) (size : Option SipiSize) (force_bps_8 : Bool)
    (g : Restrictions) (img1 : SipiImage) (tr1 : List Call)
    (h : (decode env size force_bps_8 g img1 tr1).ret = some (.ok true))
    (hs : (size.isSome && !g.redonly) = false) :
    (decode env size force_bps_8 g img1 tr1).img.nx
      = to_size_t (env.codestream.get_dims g.reduce
          (if g.do_roi then some g.roi else none)).size_x ∧
    (decode env size force_bps_8 g img1 tr1).img.ny
      = to_size_t (env.codestream.get_dims g.reduce
          (if g.do_roi then some g.roi else none)).size_y := by
  obtain ⟨r, photo, img5, img6, hres, hinf, hpull, hexp, himg⟩ :=
    decode_success env size force_bps_8 g img1 tr1 h
  have hr := resolve_layer_ok_fields _ _ _ _ hres
  have h5 := pull_pixels_ok _ _ _ _ hpull
  have h6 : img6.nx = img5.nx ∧ img6.ny = img5.ny := by
    cases hl : r.luts with
    | none =>
      rw [hl] at hexp
      simp only [Option.some.injEq] at hexp
      rw [← hexp]
      exact ⟨rfl, rfl⟩
    | some l =>
      rw [hl] at hexp
      simp only [] at hexp
      have := expand_palette_some _ _ _ _ _ hexp
      exact ⟨this.2.2.2.2.1, this.2.2.2.2.2⟩
  have hp := post_process_geometry env size g img6 hs
  rw [himg, hp.1, hp.2, h6.1, h6.2, h5.2.2.2.1, h5.2.2.2.2.1]
  simp only [] at hr ⊢
  rw [hr.2.2.1, hr.2.2.2]
  exact ⟨rfl, rfl⟩

/-- C12: when the region is absent or FULL and the size is absent or FULL, `read` hands
`apply_input_restrictions` the reduce level 0 and no region, never calls `scale`, and on
success leaves in the image the width and height that `get_dims` reports under these
restrictions. For every call of `read`, `scale` is called exactly when the read gets to its
end, a size that is not FULL was given, and `get_size` has set `redonly` to false. -/
theorem full_decode_no_resample (env : Env) (img : SipiImage) (region : Option SipiRegion)
    (size : Option SipiSize) (force_bps_8 : Bool) :
    ((region = none ∨ ∃ r, region = some r ∧ r.is_full = true) →
     (size = none ∨ ∃ s, size = some s ∧ s.is_full = true) →
      restrictions env.codestream region size = .ok full_image ∧
      (∀ red roi, Call.apply_input_restrictions red roi
          ∈ (read env img region size force_bps_8).trace → red = 0 ∧ roi = none) ∧
      (∀ a b, Call.scale a b ∉ (read env img region size force_bps_8).trace) ∧
      ((read env img region size force_bps_8).ret = some (.ok true) →
        Call.apply_input_restrictions 0 none ∈ (read env img region size force_bps_8).trace ∧
        (read env img region size force_bps_8).img.nx
          = to_size_t (env.codestream.get_dims 0 none).size_x ∧
        (read env img region size force_bps_8).img.ny
          = to_size_t (env.codestream.get_dims 0 none).size_y)) ∧
    ((∃ a b, Call.scale a b ∈ (read env img region size force_bps_8).trace) ↔
      (read env img region size force_bps_8).ret = some (.ok true) ∧
      ∃ s g, size = some s ∧ s.is_full = false ∧
        restrictions env.codestream region size = .ok g ∧ g.redonly = false) ∧
    (∀ s g, size = some s → s.is_full = false →
      restrictions env.codestream region size = .ok g →
      g.redonly = (if g.do_roi then s.get_size g.roi.size_x g.roi.size_y
        else s.get_size env.codestream.siz_nx env.codestream.siz_ny).2.2.2) := by
  have hpost : ∀ (g : Restrictions) (img6 : SipiImage) (c : Call),
      c ∈ (post_process env size g img6).2 →
      (∀ red roi, c ≠ .apply_input_restrictions red roi) ∧
      ((∃ a b, c = .scale a b) → (size.isSome && !g.redonly) = true) := by
    intro g img6 c hc
    rw [post_process_trace, List.mem_append] at hc
    rcases hc with hc | hc
    · split_ifs at hc
      · simp only [List.mem_singleton] at hc
        simp [hc]
      · simp at hc
    · split_ifs at hc with hs
      · simp only [List.mem_singleton] at hc
        refine ⟨by simp [hc], fun _ => hs⟩
      · simp at hc
  refine ⟨?_, ?_, ?_⟩
  · intro hr hs
    have hfull := restrictions_full env.codestream region size hr hs
    have hnos : ∀ g, restrictions env.codestream region size = .ok g →
        (size.isSome && !g.redonly) = false := by
      intro g hg
      rw [hfull] at hg
      simp only [Except.ok.injEq] at hg
      subst hg
      simp [full_image]
    refine ⟨hfull, ?_, ?_, ?_⟩
    · intro red roi hmem
      rcases read_trace_cases env img region size force_bps_8 with ⟨-, hall⟩ |
        ⟨-, g, pre, mid, img6, hg, htr, -, hpm⟩
      · rcases hall _ hmem with ⟨red', roi', he, g, hg, h1, h2⟩ | ⟨hno, -⟩
        · rw [hfull] at hg
          simp only [Except.ok.injEq] at hg
          subst hg
          simp only [Call.apply_input_restrictions.injEq] at he
          rw [he.1, he.2, h1, h2]
          simp [full_image]
        · exact absurd rfl (hno red roi)
      · rw [htr, List.mem_append, List.mem_append, List.mem_append] at hmem
        rcases hmem with ((hmem | hmem) | hmem) | hmem
        · exact absurd rfl ((hpm _ (List.mem_append_left _ hmem)).1 red roi)
        · simp only [List.mem_singleton, Call.apply_input_restrictions.injEq] at hmem
          rw [hfull] at hg
          simp only [Except.ok.injEq] at hg
          subst hg
          rw [hmem.1, hmem.2]
          simp [full_image]
        · exact absurd rfl ((hpm _ (List.mem_append_right _ hmem)).1 red roi)
        · exact absurd rfl ((hpost g img6 _ hmem).1 red roi)
    · intro a b hmem
      rcases read_trace_cases env img region size force_bps_8 with ⟨-, hall⟩ |
        ⟨-, g, pre, mid, img6, hg, htr, -, hpm⟩
      · rcases hall _ hmem with ⟨red', roi', he, -⟩ | ⟨-, hno⟩
        · cases he
        · exact absurd rfl (hno a b)
      · rw [htr, List.mem_append, List.mem_append, List.mem_append] at hmem
        rcases hmem with ((hmem | hmem) | hmem) | hmem
        · exact absurd rfl ((hpm _ (List.mem_append_left _ hmem)).2 a b)
        · simp only [List.mem_singleton] at hmem
          cases hmem
        · exact absurd rfl ((hpm _ (List.mem_append_right _ hmem)).2 a b)
        · have := (hpost g img6 _ hmem).2 ⟨a, b, rfl⟩
          rw [hnos g hg] at this
          cases this
    · intro hok
      obtain ⟨g, hj, hc, hg, hread⟩ := read_success env img region size force_bps_8 hok
      have hg' := hg
      rw [hfull] at hg'
      simp only [Except.ok.injEq] at hg'
      subst hg'
      refine ⟨?_, ?_⟩
      · rcases read_trace_cases env img region size force_bps_8 with ⟨hne, -⟩ |
          ⟨-, g, pre, mid, img6, hg2, htr, -, -⟩
        · exact absurd hok hne
        · rw [hfull] at hg2
          simp only [Except.ok.injEq] at hg2
          subst hg2
          rw [htr]
          simp [full_image]
      · rw [hread] at hok ⊢
        have := decode_geometry env size force_bps_8 full_image _ _ hok (hnos full_image hg)
        simpa [full_image] using this
  · constructor
    · rintro ⟨a, b, hmem⟩
      rcases read_trace_cases env img region size force_bps_8 with ⟨-, hall⟩ |
        ⟨hok, g, pre, mid, img6, hg, htr, -, hpm⟩
      · rcases hall _ hmem with ⟨red', roi', he, -⟩ | ⟨-, hno⟩
        · cases he
        · exact absurd rfl (hno a b)
      · rw [htr, List.mem_append, List.mem_append, List.mem_append] at hmem
        rcases hmem with ((hmem | hmem) | hmem) | hmem
        · exact absurd rfl ((hpm _ (List.mem_append_left _ hmem)).2 a b)
        · simp only [List.mem_singleton] at hmem
          cases hmem
        · exact absurd rfl ((hpm _ (List.mem_append_right _ hmem)).2 a b)
        · have hcond := (hpost g img6 _ hmem).2 ⟨a, b, rfl⟩
          simp only [Bool.and_eq_true, Bool.not_eq_true', Option.isSome_iff_exists] at hcond
          obtain ⟨⟨s, hs⟩, hred⟩ := hcond
          refine ⟨hok, s, g, hs, ?_, hg, hred⟩
          cases hfull : s.is_full with
          | false => rfl
          | true =>
            have h1 := (restrictions_ok _ _ _ _ hg).2.2.2.2
            rw [scaling_full env.codestream size g.do_roi g.roi (Or.inr ⟨s, hs, hfull⟩)] at h1
            rw [h1] at hred
            cases hred
    · rintro ⟨hok, s, g, hs, -, hg, hred⟩
      rcases read_trace_cases env img region size force_bps_8 with ⟨hne, -⟩ |
        ⟨-, g', pre, mid, img6, hg', htr, -, -⟩
      · exact absurd hok hne
      · rw [hg] at hg'
        simp only [Except.ok.injEq] at hg'
        subst hg'
        refine ⟨g.nnx, g.nny, ?_⟩
        rw [htr, post_process_trace]
        simp [hs, hred]
  · intro s g hs hfull hg
    have h1 := (restrictions_ok _ _ _ _ hg).2.2.2.2
    rw [h1, hs]
    simp only [scaling, hfull, Bool.not_false, if_true]

/-- A closed instance of C12: a raw codestream read without region and without size. -/
theorem full_decode_no_resample_witness :
    Call.apply_input_restrictions 0 none
      ∈ (read (raw_env 8 3) blank_image none none false).trace ∧
    (read (raw_env 8 3) blank_image none none false).img.nx = 2 ∧
    (read (raw_env 8 3) blank_image none none false).img.ny = 1 :=
  ((full_decode_no_resample (raw_env 8 3) blank_image none none false).1
    (Or.inl rfl) (Or.inl rfl)).2.2.2 rfl

/-! ### Photometric of a palette image -/

theorem read_palette_layer (space : ℤ) :
    read (jp2_env [] two_entry_palette ⟨3, some ⟨space, []⟩⟩) blank_image none none false =
      decode (jp2_env [] two_entry_palette ⟨3, some ⟨space, []⟩⟩) none false full_image
        (read_comment (jp2_env [] two_entry_palette ⟨3, some ⟨space, []⟩⟩).codestream
          (open_source (jp2_env [] two_entry_palette ⟨3, some ⟨space, []⟩⟩) blank_image).1)
        ((open_source (jp2_env [] two_entry_palette ⟨3, some ⟨space, []⟩⟩) blank_image).2 ++
          [Call.codestream_create]) :=
  read_eq_decode _ blank_image none none false full_image rfl rfl rfl

theorem palette_srgb_read_ok :
    (read (jp2_env [] two_entry_palette ⟨3, some ⟨16, []⟩⟩) blank_image none none false).ret
      = some (.ok true) := by
  rw [read_palette_layer]
  simp only [decode, resolve_layer, layer_branch, jp2_env, read_luts_two_entry]
  rfl

/-- C13 (counterexample): a file with a palette of three lookup tables whose colour
descriptor reports CMYK (code 12) and whose layer reports 4 colour channels is read
successfully, the pixels are expanded, and the photometric of the image is separated, not
RGB. -/
theorem palette_cmyk_stays_separated :
    (read (jp2_env [] two_entry_palette ⟨4, some ⟨12, []⟩⟩) blank_image none none false).ret
      = some (.ok true) ∧
    (read (jp2_env [] two_entry_palette ⟨4, some ⟨12, []⟩⟩) blank_image none none false).img.pixels
      = [255, 255, 255, 255, 255, 255, 0, 0] ∧
    (read (jp2_env [] two_entry_palette ⟨4, some ⟨12, []⟩⟩) blank_image none none false).img.photo
      = .SEPARATED ∧
    (read (jp2_env [] two_entry_palette ⟨4, some ⟨12, []⟩⟩) blank_image none none false).img.photo
      ≠ .RGB := by
  rw [read_eq_decode (jp2_env [] two_entry_palette ⟨4, some ⟨12, []⟩⟩) blank_image none none
    false full_image rfl rfl rfl]
  simp only [decode, resolve_layer, layer_branch, jp2_env, read_luts_two_entry]
  refine ⟨rfl, rfl, rfl, by decide⟩

theorem colour_switch_ne_invalid (sp : jp2_colour_space → ℤ) (space : ℤ)
    (icc_profile : List Nat) (p : PhotometricInterpretation) (icc : SipiIcc)
    (h : colour_switch sp space icc_profile = .ok (p, icc)) :
    p = .RGB ∨ p = .SEPARATED ∨ p = .YCBCR ∨ p = .MINISBLACK := by
  unfold colour_switch at h
  split_ifs at h <;> simp only [Except.ok.injEq, Prod.mk.injEq] at h <;>
    (obtain ⟨h1, -⟩ := h; subst h1; simp)

/-- C13 (amended): for every successful read of a file with a palette of three lookup
tables, the photometric after expansion is the one that the colour descriptor gives (or,
without colour descriptor, the colour-channel count), with YCbCr turned into RGB; the
expansion itself leaves the photometric alone. -/
theorem palette_keeps_photometric (env : Env) (img : SipiImage)
    (region : Option SipiRegion) (size : Option SipiSize) (force_bps_8 : Bool)
    (j : jpx_source) (l : jpx_layer_source)
    (hok : (read env img region size force_bps_8).ret = some (.ok true))
    (hj : env.jpx = some j) (hl : j.layer = some l) (hluts : j.palette.num_luts = 3) :
    (read_luts j.palette).isSome = true ∧
    (∀ c p icc, l.colour = some c →
      colour_switch env.sp c.space c.icc_profile = .ok (p, icc) →
      (read env img region size force_bps_8).img.photo = (if p = .YCBCR then .RGB else p)) ∧
    (l.colour = none →
      infer_photo .INVALID l.num_colours
        = .ok (read env img region size force_bps_8).img.photo) := by
  obtain ⟨g, hjp, hc, hg, hread⟩ := read_success env img region size force_bps_8 hok
  rw [hread] at hok ⊢
  obtain ⟨r, photo, img5, img6, hres, hinf, hpull, hexp, himg⟩ :=
    decode_success env size force_bps_8 g _ _ hok
  have h5 := (pull_pixels_ok _ _ _ _ hpull).1
  have h6 : img6.photo = photo := by
    cases hlu : r.luts with
    | none =>
      rw [hlu] at hexp
      simp only [Option.some.injEq] at hexp
      rw [← hexp, h5]
    | some lu =>
      rw [hlu] at hexp
      simp only [] at hexp
      rw [(expand_palette_some _ _ _ _ _ hexp).1, h5]
  rw [himg, (post_process_fields env size g img6).1, h6]
  refine ⟨by simp [read_luts, hluts], ?_, ?_⟩
  · intro c p icc hcol hsw
    rw [hj, resolve_layer_colour env.sp j l c _ hl hcol, hsw] at hres
    simp only [Except.ok.injEq] at hres
    subst hres
    simp only [] at hinf
    have hp := colour_switch_ne_invalid _ _ _ _ _ hsw
    have : infer_photo p l.num_colours = .ok p := by
      rcases hp with h | h | h | h <;> subst h <;> rfl
    rw [this] at hinf
    simp only [Except.ok.injEq] at hinf
    rw [← hinf]
  · intro hcol
    obtain ⟨r', hres', hph, hnum, -, -⟩ := resolve_layer_no_colour env.sp env.jpx
      (set_geometry env.codestream g (read_comment env.codestream (open_source env img).1))
      (by
        intro j' l' hj' hl'
        rw [hj] at hj'
        cases hj'
        rw [hl] at hl'
        cases hl'
        exact hcol)
    rw [hres] at hres'
    cases hres'
    have hn : r.numcol = l.num_colours := by
      rw [hnum, hj]
      simp only [numcol_of, hl]
    rw [hph, hn] at hinf
    rw [hinf]
    have : photo ≠ .YCBCR := by
      intro h
      subst h
      unfold infer_photo at hinf
      split_ifs at hinf <;> cases hinf
    simp [this]

/-- The closed instance of C13 (amended): the palette file with an sRGB colour
descriptor. -/
theorem palette_keeps_photometric_witness :
    (read (jp2_env [] two_entry_palette ⟨3, some ⟨16, []⟩⟩) blank_image none none false).img.photo
      = .RGB :=
  (palette_keeps_photometric (jp2_env [] two_entry_palette ⟨3, some ⟨16, []⟩⟩) blank_image
    none none false _ _ palette_srgb_read_ok rfl rfl rfl).2.1 ⟨16, []⟩ .RGB
    (.predefined .icc_sRGB) rfl rfl

/-! ### Presets: `write`, then `read` -/

/-- C14 (counterexample): for an image whose ICC profile is the preset ROMM_GRAY, `write`
selects the colour space sLUM, and `read` maps the code of sLUM to the preset LUM_D65, not
back to ROMM_GRAY. -/
theorem romm_gray_not_inverse :
    (write plain_write_env (grey_image (.predefined .icc_ROMM_GRAY))).colour
      = some (.space .JP2_sLUM_SPACE) ∧
    colour_switch kdu_space_value (kdu_space_value .JP2_sLUM_SPACE) []
      = .ok (.MINISBLACK, .predefined .icc_LUM_D65) ∧
    SipiIcc.predefined .icc_LUM_D65 ≠ SipiIcc.predefined .icc_ROMM_GRAY := by
  refine ⟨rfl, rfl, by decide⟩

/-- C14 (amended): for the presets sRGB, CMYK-standard and LUM_D65 the colour space that
`write` selects is one whose code `read` maps back to the same preset; for the preset
ROMM_GRAY `write` selects sLUM, whose code `read` maps to LUM_D65; profiles of the types
undefined, unknown, AdobeRGB, RGB and GRAY_D50 are written as their embedded bytes. -/
theorem preset_round_trip (sp : jp2_colour_space → ℤ) (hsp : case_labels_distinct sp)
    (w : WriteEnv) (img : SipiImage) (icc : SipiIcc) (icc_profile : List Nat)
    (hicc : img.icc = some icc) :
    (w.getProfileType icc = .icc_sRGB →
      (write w img).colour = some (.space .JP2_sRGB_SPACE) ∧
      colour_switch sp (sp .JP2_sRGB_SPACE) icc_profile
        = .ok (.RGB, .predefined .icc_sRGB)) ∧
    (w.getProfileType icc = .icc_CYMK_standard →
      (write w img).colour = some (.space .JP2_CMYK_SPACE) ∧
      colour_switch sp (sp .JP2_CMYK_SPACE) icc_profile
        = .ok (.SEPARATED, .predefined .icc_CYMK_standard)) ∧
    (w.getProfileType icc = .icc_LUM_D65 →
      (write w img).colour = some (.space .JP2_sLUM_SPACE) ∧
      colour_switch sp (sp .JP2_sLUM_SPACE) icc_profile
        = .ok (.MINISBLACK, .predefined .icc_LUM_D65)) ∧
    (w.getProfileType icc = .icc_ROMM_GRAY →
      (write w img).colour = some (.space .JP2_sLUM_SPACE) ∧
      colour_switch sp (sp .JP2_sLUM_SPACE) icc_profile
        = .ok (.MINISBLACK, .predefined .icc_LUM_D65)) ∧
    (w.getProfileType icc = .icc_undefined ∨ w.getProfileType icc = .icc_unknown ∨
      w.getProfileType icc = .icc_AdobeRGB ∨ w.getProfileType icc = .icc_RGB ∨
      w.getProfileType icc = .icc_GRAY_D50 →
      (write w img).colour = some (.icc_profile (w.iccBytes icc))) := by
  have inj := hsp.1
  have hlum : colour_switch sp (sp .JP2_sLUM_SPACE) icc_profile
      = .ok (.MINISBLACK, .predefined .icc_LUM_D65) := by
    simp [colour_switch, inj.eq_iff]
  rw [write_colour]
  refine ⟨?_, ?_, ?_, ?_, ?_⟩
  · intro h
    exact ⟨by simp [colour_init, hicc, h], by simp [colour_switch]⟩
  · intro h
    exact ⟨by simp [colour_init, hicc, h], by simp [colour_switch, inj.eq_iff]⟩
  · intro h
    exact ⟨by simp [colour_init, hicc, h], hlum⟩
  · intro h
    exact ⟨by simp [colour_init, hicc, h], hlum⟩
  · intro h
    rcases h with h | h | h | h | h <;> simp [colour_init, hicc, h]

/-- The closed instance of C14 (amended): the preset sRGB with the values of Kakadu's
header. -/
theorem preset_round_trip_witness :
    (write plain_write_env (grey_image (.predefined .icc_sRGB))).colour
      = some (.space .JP2_sRGB_SPACE) ∧
    colour_switch kdu_space_value (kdu_space_value .JP2_sRGB_SPACE) []
      = .ok (.RGB, .predefined .icc_sRGB) :=
  (preset_round_trip kdu_space_value kdu_space_value_distinct plain_write_env
    (grey_image (.predefined .icc_sRGB)) (.predefined .icc_sRGB) [] rfl).1 rfl

/-! ### A PNG stream -/

/-- C15 (counterexample): a byte stream that begins with the PNG signature and carries
`FF 52` at the offsets 45 and 46 is accepted by `is_jpx`, and `read` goes on to the codec
engine. -/
theorem png_with_marker_accepted :
    png_with_marker.take 8 = [0x89, 0x50, 0x4E, 0x47, 0x0D, 0x0A, 0x1A, 0x0A] ∧
    is_jpx (some png_with_marker) [] = true ∧
    Call.codestream_create ∈
      (read { raw_env 8 3 with file := some png_with_marker } blank_image none none
        false).trace := by
  refine ⟨by decide, by decide, by decide⟩

/-- C15 (amended): for every byte stream that begins with the PNG signature and does not
carry `FF 52` at the offsets 45 and 46, `is_jpx` returns false, so that `read` and `getDim`
return false without any call on the container or the engine and leave the image and the
output width and height as they were. -/
theorem png_rejected (rest stack : List Nat)
    (h : ((png_signature ++ rest).drop 45).take 2 ≠ [0xff, 0x52]) :
    is_jpx (some (png_signature ++ rest)) stack = false ∧
    (∀ (env : Env) (img : SipiImage) (region : Option SipiRegion) (size : Option SipiSize)
        (force_bps_8 : Bool),
      env.file = some (png_signature ++ rest) → env.stack = stack →
      (read env img region size force_bps_8).ret = some (.ok false) ∧
      (read env img region size force_bps_8).img = img ∧
      (read env img region size force_bps_8).trace = []) ∧
    (∀ (env : Env) (width height : Nat),
      env.file = some (png_signature ++ rest) → env.stack = stack →
      (getDim env width height).ret = .ok false ∧
      (getDim env width height).width = width ∧
      (getDim env width height).height = height ∧
      (getDim env width height).trace = []) := by
  have hfalse : is_jpx (some (png_signature ++ rest)) stack = false := by
    cases hres : is_jpx (some (png_signature ++ rest)) stack with
    | false => rfl
    | true =>
      exfalso
      rcases (is_jpx_some _ _).mp hres with ⟨-, h0⟩ | ⟨-, h1⟩ | ⟨-, h2⟩
      · exact h h0
      · simp [png_signature] at h1
      · simp [png_signature] at h2
  refine ⟨hfalse, ?_, ?_⟩
  · intro env img region size force_bps_8 hf hs
    simp [read, hf, hs, hfalse]
  · intro env width height hf hs
    simp [getDim, hf, hs, hfalse]

/-- The closed instance of C15 (amended): the head of a PNG stream of one pixel. -/
theorem png_rejected_witness :
    is_jpx (some png_plain) [] = false :=
  (png_rejected
    [0x00, 0x00, 0x00, 0x0D, 0x49, 0x48, 0x44, 0x52, 0x00, 0x00, 0x00, 0x01, 0x00, 0x00, 0x00,
     0x01, 0x08, 0x00, 0x00, 0x00, 0x00, 0x3A, 0x7E, 0x9B, 0x55, 0x00, 0x00, 0x00, 0x0A, 0x49,
     0x44, 0x41, 0x54] [] (by decide)).1

/-! ### Extra samples -/

theorem scan_box_es (m : MetaCtors) (stack : List Nat) (img : SipiImage) (box : Box) :
    (scan_box m stack img box).es = img.es := by
  unfold scan_box
  simp only []
  split_ifs <;> rfl

theorem scan_boxes_es (m : MetaCtors) (stack : List Nat) (boxes : List Box) :
    ∀ img : SipiImage, (scan_boxes m stack img boxes).es = img.es := by
  induction boxes with
  | nil => intro img; rfl
  | cons b bs ih =>
    intro img
    unfold scan_boxes at ih ⊢
    rw [List.foldl_cons, ih, scan_box_es]

theorem before_decode_es (env : Env) (img : SipiImage) (g : Restrictions) :
    (set_geometry env.codestream g (read_comment env.codestream (open_source env img).1)).es
      = img.es := by
  have h1 : (open_source env img).1.es = img.es := by
    unfold open_source
    cases env.jpx with
    | none => rfl
    | some j => exact scan_boxes_es _ _ _ _
  have h2 : (read_comment env.codestream (open_source env img).1).es
      = (open_source env img).1.es := by
    unfold read_comment
    split <;> rfl
  exact h2.trans h1

theorem push_alpha_small (n c : ℤ) (es : List ExtraSamples) (hn : 0 ≤ n ∧ n < 2 ^ 31)
    (hc : 0 ≤ c ∧ c < 2 ^ 31) :
    push_alpha (to_size_t n) c es = es ++ List.replicate (n - c).toNat ExtraSamples.ASSOCALPHA := by
  have e1 : to_size_t n = n.toNat := by
    unfold to_size_t
    congr 1
    omega
  have e2 : to_size_t c = c.toNat := by
    unfold to_size_t
    congr 1
    omega
  unfold push_alpha
  rw [e1, e2]
  by_cases h : n.toNat > c.toNat
  · rw [if_pos h]
    have : sub_size_t n.toNat c.toNat = (n - c).toNat := by
      unfold sub_size_t
      omega
    rw [this]
  · rw [if_neg h]
    have : (n - c).toNat = 0 := by omega
    rw [this]
    simp

/-- C16 (counterexample): the palette file with an sRGB colour descriptor is read
successfully although its colour-channel count `numcol = 3` exceeds the component count
`nc = 1` of the codestream; no extra sample is recorded. -/
theorem numcol_exceeds_nc :
    (read (jp2_env [] two_entry_palette ⟨3, some ⟨16, []⟩⟩) blank_image none none false).ret
      = some (.ok true) ∧
    numcol_of (jp2_env [] two_entry_palette ⟨3, some ⟨16, []⟩⟩).jpx
      (to_size_t (jp2_env [] two_entry_palette ⟨3, some ⟨16, []⟩⟩).codestream.num_components)
      = 3 ∧
    (jp2_env [] two_entry_palette ⟨3, some ⟨16, []⟩⟩).codestream.num_components = 1 ∧
    ¬ numcol_of (jp2_env [] two_entry_palette ⟨3, some ⟨16, []⟩⟩).jpx
        (to_size_t (jp2_env [] two_entry_palette ⟨3, some ⟨16, []⟩⟩).codestream.num_components)
      ≤ (jp2_env [] two_entry_palette ⟨3, some ⟨16, []⟩⟩).codestream.num_components ∧
    (read (jp2_env [] two_entry_palette ⟨3, some ⟨16, []⟩⟩) blank_image none none false).img.es
      = [] := by
  refine ⟨palette_srgb_read_ok, rfl, rfl, by decide, ?_⟩
  rw [read_palette_layer]
  simp only [decode, resolve_layer, layer_branch, jp2_env, read_luts_two_entry]
  rfl

theorem decode_es (env : Env) (size : Option SipiSize) (force_bps_8 : Bool)
    (g : Restrictions) (img1 : SipiImage) (tr1 : List Call)
    (h : (decode env size force_bps_8 g img1 tr1).ret = some (.ok true)) :
    ∃ r, resolve_layer env.sp env.jpx (set_geometry env.codestream g img1) = .ok r ∧
      (decode env size force_bps_8 g img1 tr1).img.es = r.img.es := by
  obtain ⟨r, photo, img5, img6, hres, hinf, hpull, hexp, himg⟩ :=
    decode_success env size force_bps_8 g img1 tr1 h
  refine ⟨r, hres, ?_⟩
  have h5 := (pull_pixels_ok _ _ _ _ hpull).2.2.1
  have h6 : img6.es = img5.es := by
    cases hl : r.luts with
    | none =>
      rw [hl] at hexp
      simp only [Option.some.injEq] at hexp
      rw [← hexp]
    | some l =>
      rw [hl] at hexp
      simp only [] at hexp
      exact (expand_palette_some _ _ _ _ _ hexp).2.2.2.1
  rw [himg, (post_process_fields env size g img6).2.2.2, h6, h5]

theorem resolve_layer_es (sp : jp2_colour_space → ℤ) (jpx : Option jpx_source)
    (img : SipiImage) (r : Resolved) (h : resolve_layer sp jpx img = .ok r) :
    (∀ j l, jpx = some j → j.layer = some l →
      r.img.es = push_alpha img.nc l.num_colours img.es) ∧
    ((∀ j, jpx = some j → j.layer = none) → r.img.es = img.es) := by
  unfold resolve_layer at h
  simp only [] at h
  cases jpx with
  | none =>
    simp only [Except.ok.injEq] at h
    subst h
    exact ⟨fun j l hj => (by cases hj), fun _ => rfl⟩
  | some j =>
    simp only [] at h
    cases hl : j.layer with
    | none =>
      rw [hl] at h
      simp only [Except.ok.injEq] at h
      subst h
      refine ⟨?_, fun _ => rfl⟩
      intro j' l' hj' hl'
      cases hj'
      rw [hl] at hl'
      cases hl'
    | some l =>
      rw [hl] at h
      simp only [layer_branch] at h
      refine ⟨?_, ?_⟩
      · intro j' l' hj' hl'
        cases hj'
        rw [hl] at hl'
        cases hl'
        cases hc : l.colour with
        | none =>
          rw [hc] at h
          simp only [Except.ok.injEq] at h
          subst h
          rfl
        | some c =>
          rw [hc] at h
          simp only [] at h
          cases hsw : colour_switch sp c.space c.icc_profile with
          | error e =>
            rw [hsw] at h
            cases h
          | ok v =>
            rw [hsw] at h
            simp only [Except.ok.injEq] at h
            subst h
            rfl
      · intro hno
        have := hno j rfl
        rw [hl] at this
        cases this

/-- C16 (amended): for every successful read in which the layer exists, `read` records
`nc - numcol` extra samples, each as associated alpha, when the colour-channel count
`numcol` is at most the component count `nc`, and none when `numcol` exceeds `nc` (the guard
`img->nc > numcol` of line 399); when the layer is absent no extra sample is recorded. -/
theorem extra_samples_recorded (env : Env) (img : SipiImage) (region : Option SipiRegion)
    (size : Option SipiSize) (force_bps_8 : Bool)
    (hok : (read env img region size force_bps_8).ret = some (.ok true))
    (hnc : 0 ≤ env.codestream.num_components ∧ env.codestream.num_components < 2 ^ 31) :
    (∀ j l, env.jpx = some j → j.layer = some l →
      0 ≤ l.num_colours → l.num_colours < 2 ^ 31 →
      (read env img region size force_bps_8).img.es =
        img.es ++ List.replicate (env.codestream.num_components - l.num_colours).toNat
          ExtraSamples.ASSOCALPHA ∧
      (l.num_colours ≤ env.codestream.num_components →
        ((read env img region size force_bps_8).img.es.length : ℤ)
          = img.es.length + (env.codestream.num_components - l.num_colours)) ∧
      (env.codestream.num_components < l.num_colours →
        (read env img region size force_bps_8).img.es = img.es)) ∧
    ((∀ j, env.jpx = some j → j.layer = none) →
      (read env img region size force_bps_8).img.es = img.es) := by
  obtain ⟨g, hjp, hc, hg, hread⟩ := read_success env img region size force_bps_8 hok
  rw [hread] at hok ⊢
  obtain ⟨r, hres, hes⟩ := decode_es env size force_bps_8 g _ _ hok
  have hr := resolve_layer_es _ _ _ _ hres
  rw [hes]
  have hbefore := before_decode_es env img g
  have hncg : (set_geometry env.codestream g
      (read_comment env.codestream (open_source env img).1)).nc
        = to_size_t env.codestream.num_components := rfl
  constructor
  · intro j l hj hl h0 h1
    have e := hr.1 j l hj hl
    rw [hbefore, hncg, push_alpha_small _ _ _ hnc ⟨h0, h1⟩] at e
    refine ⟨e, ?_, ?_⟩
    · intro hle
      rw [e, List.length_append, List.length_replicate]
      push_cast
      rw [Int.toNat_of_nonneg (by omega)]
    · intro hlt
      rw [e]
      have : (env.codestream.num_components - l.num_colours).toNat = 0 := by omega
      rw [this]
      simp
  · intro hno
    rw [hr.2 hno, hbefore]

theorem cmyk_alpha_read :
    read cmyk_alpha_env blank_image none none false =
      decode cmyk_alpha_env none false full_image
        (read_comment cmyk_alpha_env.codestream (open_source cmyk_alpha_env blank_image).1)
        ((open_source cmyk_alpha_env blank_image).2 ++ [Call.codestream_create]) :=
  read_eq_decode _ blank_image none none false full_image rfl rfl rfl

theorem cmyk_alpha_read_ok :
    (read cmyk_alpha_env blank_image none none false).ret = some (.ok true) := by
  rw [cmyk_alpha_read]
  rfl

/-- The closed instance of C16 (amended): the file of five components with 4 colour
channels gets one associated-alpha sample. -/
theorem extra_samples_recorded_witness :
    (read cmyk_alpha_env blank_image none none false).img.es = [ExtraSamples.ASSOCALPHA] :=
  ((extra_samples_recorded cmyk_alpha_env blank_image none none false cmyk_alpha_read_ok
    (by decide)).1 _ _ rfl rfl (by decide) (by decide)).1

/-! ### Photometric after a successful read -/

theorem decode_success_trace (env : Env) (size : Option SipiSize) (force_bps_8 : Bool)
    (g : Restrictions) (img1 : SipiImage) (tr1 : List Call)
    (h : (decode env size force_bps_8 g img1 tr1).ret = some (.ok true)) :
    ∃ r photo img5 img6,
      resolve_layer env.sp env.jpx (set_geometry env.codestream g img1) = .ok r ∧
      infer_photo r.img.photo r.numcol = .ok photo ∧
      (pull_pixels env.codestream { r.img with photo := photo } force_bps_8).1 = .ok img5 ∧
      (match r.luts with
        | some l => expand_palette env.heap img5 r.numcol l
        | none => some img5) = some img6 ∧
      (decode env size force_bps_8 g img1 tr1).img = (post_process env size g img6).1 ∧
      (decode env size force_bps_8 g img1 tr1).trace =
        tr1 ++ [Call.apply_input_restrictions g.reduce (if g.do_roi then some g.roi else none)]
          ++ (pull_pixels env.codestream { r.img with photo := photo } force_bps_8).2
          ++ (post_process env size g img6).2 := by
  obtain ⟨r, photo, img5, img6, hres, hinf, hpull, hexp, himg⟩ :=
    decode_success env size force_bps_8 g img1 tr1 h
  refine ⟨r, photo, img5, img6, hres, hinf, hpull, hexp, himg, ?_⟩
  simp only [decode, hres, hinf, hpull, hexp]

theorem infer_photo_ok (p photo : PhotometricInterpretation) (n : ℤ)
    (h : infer_photo p n = .ok photo) :
    photo = .MINISBLACK ∨ photo = .RGB ∨ photo = .SEPARATED ∨ photo = .YCBCR := by
  unfold infer_photo at h
  split_ifs at h with h0 h1 h3 h4
  · simp only [Except.ok.injEq] at h
    exact Or.inl h.symm
  · simp only [Except.ok.injEq] at h
    exact Or.inr (Or.inl h.symm)
  · simp only [Except.ok.injEq] at h
    exact Or.inr (Or.inr (Or.inl h.symm))
  · simp only [Except.ok.injEq] at h
    subst h
    cases p
    · exact Or.inl rfl
    · exact Or.inr (Or.inl rfl)
    · exact Or.inr (Or.inr (Or.inl rfl))
    · exact Or.inr (Or.inr (Or.inr rfl))
    · exact absurd rfl h0

/-- C17: after every successful read the photometric of the image is grayscale, RGB or
separated, never YCbCr and never the value `INVALID`; when the resolution gives YCbCr,
`convertYCC2RGB` is called and the photometric set to RGB, and it is the image as the
palette expansion leaves it that is converted. -/
theorem photometric_after_read (env : Env) (img : SipiImage) (region : Option SipiRegion)
    (size : Option SipiSize) (force_bps_8 : Bool)
    (hok : (read env img region size force_bps_8).ret = some (.ok true)) :
    ((read env img region size force_bps_8).img.photo = .MINISBLACK ∨
      (read env img region size force_bps_8).img.photo = .RGB ∨
      (read env img region size force_bps_8).img.photo = .SEPARATED) ∧
    ∃ g r photo img5 img6,
      restrictions env.codestream region size = .ok g ∧
      resolve_layer env.sp env.jpx (set_geometry env.codestream g
        (read_comment env.codestream (open_source env img).1)) = .ok r ∧
      infer_photo r.img.photo r.numcol = .ok photo ∧
      (pull_pixels env.codestream { r.img with photo := photo } force_bps_8).1 = .ok img5 ∧
      (match r.luts with
        | some l => expand_palette env.heap img5 r.numcol l
        | none => some img5) = some img6 ∧
      (read env img region size force_bps_8).img = (post_process env size g img6).1 ∧
      (photo = .YCBCR →
        (read env img region size force_bps_8).img.photo = .RGB ∧
        Call.convertYCC2RGB ∈ (read env img region size force_bps_8).trace ∧
        ((size.isSome && !g.redonly) = false →
          (read env img region size force_bps_8).img.pixels = env.ycc2rgb img6)) ∧
      (photo ≠ .YCBCR →
        (read env img region size force_bps_8).img.photo = photo ∧
        Call.convertYCC2RGB ∉ (read env img region size force_bps_8).trace) := by
  obtain ⟨g, hjp, hc, hg, hread⟩ := read_success env img region size force_bps_8 hok
  rw [hread] at hok ⊢
  obtain ⟨r, photo, img5, img6, hres, hinf, hpull, hexp, himg, htr⟩ :=
    decode_success_trace env size force_bps_8 g _ _ hok
  have h5 := (pull_pixels_ok _ _ _ _ hpull).1
  have h6 : img6.photo = photo := by
    cases hlu : r.luts with
    | none =>
      rw [hlu] at hexp
      simp only [Option.some.injEq] at hexp
      rw [← hexp, h5]
    | some lu =>
      rw [hlu] at hexp
      simp only [] at hexp
      rw [(expand_palette_some _ _ _ _ _ hexp).1, h5]
  have hfinal := (post_process_fields env size g img6).1
  rw [h6] at hfinal
  have hphoto := infer_photo_ok _ _ _ hinf
  have hpre : Call.convertYCC2RGB ∉ (open_source env img).2 ++ [Call.codestream_create] ++
      [Call.apply_input_restrictions g.reduce (if g.do_roi then some g.roi else none)] ++
      (pull_pixels env.codestream { r.img with photo := photo } force_bps_8).2 := by
    intro hmem
    rw [List.mem_append, List.mem_append, List.mem_append] at hmem
    rcases hmem with ((hmem | hmem) | hmem) | hmem
    · rcases open_source_trace env img _ hmem with h | h | h | h | h | h <;> cases h
    · simp only [List.mem_singleton] at hmem
      cases hmem
    · simp only [List.mem_singleton] at hmem
      cases hmem
    · rcases pull_pixels_trace _ _ _ _ hmem with h | h | h | h | h | h | h <;> cases h
  refine ⟨?_, g, r, photo, img5, img6, hg, hres, hinf, hpull, hexp, himg, ?_, ?_⟩
  · rw [himg, hfinal]
    rcases hphoto with h | h | h | h <;> subst h <;> simp
  · intro hy
    subst hy
    refine ⟨by rw [himg, hfinal]; simp, ?_, ?_⟩
    · rw [htr, post_process_trace, h6]
      simp
    · intro hs
      rw [himg]
      unfold post_process
      simp [h6, hs]
  · intro hy
    refine ⟨by rw [himg, hfinal]; simp [hy], ?_⟩
    rw [htr, post_process_trace, h6]
    intro hmem
    rw [List.mem_append] at hmem
    rcases hmem with hmem | hmem
    · exact hpre hmem
    · rw [if_neg hy, List.nil_append] at hmem
      split_ifs at hmem
      · simp only [List.mem_singleton] at hmem
        cases hmem
      · simp at hmem

theorem sycc_read_ok :
    (read (jp2_env [] no_palette ⟨1, some ⟨18, []⟩⟩) blank_image none none false).ret
      = some (.ok true) := by
  rw [read_eq_decode (jp2_env [] no_palette ⟨1, some ⟨18, []⟩⟩) blank_image none none false
    full_image rfl rfl rfl]
  rfl

/-- The closed instance of C17: a file whose colour descriptor reports sYCC (code 18) ends
with one of the three photometrics. -/
theorem photometric_after_read_witness :
    (read (jp2_env [] no_palette ⟨1, some ⟨18, []⟩⟩) blank_image none none false).img.photo
        = .MINISBLACK ∨
    (read (jp2_env [] no_palette ⟨1, some ⟨18, []⟩⟩) blank_image none none false).img.photo
        = .RGB ∨
    (read (jp2_env [] no_palette ⟨1, some ⟨18, []⟩⟩) blank_image none none false).img.photo
        = .SEPARATED :=
  (photometric_after_read (jp2_env [] no_palette ⟨1, some ⟨18, []⟩⟩) blank_image none none
    false sycc_read_ok).1

/-! ### The array `stripe_heights` -/

/-- The reads of `stripe_heights` by `pull_stripe` all fall inside the array exactly when
the codestream has at most 4 components. -/
theorem stripe_heights_read_defined (cs : kdu_codestream) (g : Restrictions) :
    (∀ o ∈ stripe_heights_read cs g, o.isSome = true) ↔ to_size_t cs.num_components ≤ 4 := by
  unfold stripe_heights_read stripe_heights
  constructor
  · intro h
    by_contra hgt
    have h4 : 4 ∈ List.range (to_size_t cs.num_components) := List.mem_range.mpr (by omega)
    have := h _ (List.mem_map_of_mem _ h4)
    simp at this
  · intro hle o ho
    rw [List.mem_map] at ho
    obtain ⟨c, hc, rfl⟩ := ho
    have hc' : c < 4 := by
      have := List.mem_range.mp hc
      omega
    rw [List.getElem?_eq_getElem (by simp only [List.length_cons, List.length_nil]; omega)]
    rfl

/-- C18 (failing input): for the file of five components with 4 colour channels and a CMYK
colour descriptor, the resolution accepts the codestream (separated, one associated alpha)
and `read` calls `pull_stripe`, which reads one entry of `stripe_heights` per component:
the read for component 4 falls outside the array of 4 entries. -/
theorem stripe_heights_overrun :
    Call.pull_stripe 1 ∈ (read cmyk_alpha_env blank_image none none false).trace ∧
    (read cmyk_alpha_env blank_image none none false).img.nc = 5 ∧
    (read cmyk_alpha_env blank_image none none false).img.photo = .SEPARATED ∧
    (read cmyk_alpha_env blank_image none none false).img.es = [.ASSOCALPHA] ∧
    stripe_heights_read cmyk_alpha_env.codestream full_image
      = [some 1, some 1, some 1, some 1, none] := by
  rw [cmyk_alpha_read]
  refine ⟨by decide, rfl, rfl, rfl, rfl⟩

/-! ### Accesses of the palette expansion -/

/-- C19 (failing inputs): two files with a palette of three lookup tables of 2 entries and
2 x 1 samples. In the first the layer reports 1 colour channel: the new buffer has
`2 * 1 * 1 = 2` bytes and the store for `k = 2` of the first pixel, at index 2, is outside
it. In the second the samples have the value 5: the lookup `rlut[5]` is outside the table
of 2 entries. In both runs the expansion leaves its arrays. -/
theorem palette_access_out_of_range :
    ((read (jp2_env [] two_entry_palette ⟨1, some ⟨17, []⟩⟩) blank_image none none false).ret
        = none ∧
      (2 * 1 * to_size_t 1) % 2 ^ 64 = 2 ∧
      store [255, 255] (3 * (0 * 2 + 0) + 2) 255 = none ∧
      expand_pixel ⟨[0, 255], [0, 255], [0, 255]⟩ [1, 1] 2 0 [0, 0] 0 = none) ∧
    ((read wide_index_env blank_image none none false).ret = none ∧
      wide_index_env.codestream.stripe 1 = [5, 5] ∧
      ([0, 255] : List Nat)[5]? = none ∧
      expand_pixel ⟨[0, 255], [0, 255], [0, 255]⟩ [5, 5] 2 0 [0, 0, 0, 0, 0, 0] 0 = none) := by
  refine ⟨⟨?_, by decide, by decide, by decide⟩, ⟨?_, rfl, by decide, by decide⟩⟩
  · rw [read_eq_decode (jp2_env [] two_entry_palette ⟨1, some ⟨17, []⟩⟩) blank_image none none
      false full_image rfl rfl rfl]
    simp only [decode, resolve_layer, layer_branch, jp2_env, read_luts_two_entry]
    rfl
  · rw [read_eq_decode wide_index_env blank_image none none false full_image rfl rfl rfl]
    simp only [decode, resolve_layer, layer_branch, wide_index_env, jp2_env,
      read_luts_two_entry]
    rfl

end Sipi
